import Mathlib

/-!
# Verification development for the MyClaw agent engine core

Shallow embedding of the agent engine's data model and operations:
usage accounting, failover profile state, error classification,
session keys, transcript persistence, transcript/message conversion,
orphaned-tool-call repair, context-overflow bounding, and the run loop.

Machine numbers are modelled as `Int`/`Nat`; JavaScript strings as Lean
`String` (operating on `.data` code points where lengths matter);
JSON values as an explicit inductive.  Mutation is modelled by explicit
state passing.
-/

namespace MyClaw

/-! ## JSON values (for transcript-line parsing and tool arguments)

Models the result of a successful `JSON.parse`.  Objects are association
lists; `lookup` models JS property access (first binding wins, which
matches `JSON.parse` keeping a single binding per key). -/

inductive JsonVal where
  | null
  | bool (b : Bool)
  | num (n : Int)
  | str (s : String)
  | arr (xs : List JsonVal)
  | obj (fields : List (String × JsonVal))

/-- JS property access `j.k` on a parsed JSON value: `some v` when `j` is an
object with field `k`, otherwise `none` (JS `undefined`). -/
def JsonVal.lookup (j : JsonVal) (k : String) : Option JsonVal :=
  match j with
  | .obj fields => go fields
  | _ => none
where
  go : List (String × JsonVal) → Option JsonVal
    | [] => none
    | (k2, v) :: rest => if k2 = k then some v else go rest

/-- JS truthiness of a JSON value (`null`, `false`, `0`, `""` are falsy;
arrays and objects are always truthy). -/
def JsonVal.truthy : JsonVal → Bool
  | .null => false
  | .bool b => b
  | .num n => n != 0
  | .str s => s != ""
  | .arr _ => true
  | .obj _ => true

/-! ## Usage (src/agent/run.ts, src/agent/types.ts) -/

/-- The `cost` sub-record of the Pi SDK `Usage` value. -/
structure UsageCost where
  input : Int
  output : Int
  cacheRead : Int
  cacheWrite : Int
  total : Int
deriving DecidableEq, Repr

/-- Six token counters plus a parallel cost record. -/
structure Usage where
  input : Int
  output : Int
  cacheRead : Int
  cacheWrite : Int
  totalTokens : Int
  cost : UsageCost
deriving DecidableEq, Repr

/-- `emptyUsage()` from src/agent/run.ts. -/
def emptyUsage : Usage :=
  { input := 0, output := 0, cacheRead := 0, cacheWrite := 0, totalTokens := 0
    cost := { input := 0, output := 0, cacheRead := 0, cacheWrite := 0, total := 0 } }

/-- `mergeUsage(accumulated, latest)` from src/agent/run.ts: sums
input/output/total tokens and their costs; keeps the latest call's
cache counters (and cache costs) instead of summing them. -/
def mergeUsage (accumulated latest : Usage) : Usage :=
  { input := accumulated.input + latest.input
    output := accumulated.output + latest.output
    cacheRead := latest.cacheRead
    cacheWrite := latest.cacheWrite
    totalTokens := accumulated.totalTokens + latest.totalTokens
    cost :=
      { input := accumulated.cost.input + latest.cost.input
        output := accumulated.cost.output + latest.cost.output
        cacheRead := latest.cost.cacheRead
        cacheWrite := latest.cost.cacheWrite
        total := accumulated.cost.total + latest.cost.total } }

/-- `addUsage(acc, delta)` from src/agent/types.ts (used by the older run
loop): sums every field, including the cache counters. -/
def addUsage (acc delta : Usage) : Usage :=
  { input := acc.input + delta.input
    output := acc.output + delta.output
    cacheRead := acc.cacheRead + delta.cacheRead
    cacheWrite := acc.cacheWrite + delta.cacheWrite
    totalTokens := acc.totalTokens + delta.totalTokens
    cost :=
      { input := acc.cost.input + delta.cost.input
        output := acc.cost.output + delta.cost.output
        cacheRead := acc.cost.cacheRead + delta.cost.cacheRead
        cacheWrite := acc.cost.cacheWrite + delta.cost.cacheWrite
        total := acc.cost.total + delta.cost.total } }

/-! ## Failover profile state

Constants from src/agent/types.ts (`BASE_COOLDOWN_MS = 1_000`,
`MAX_COOLDOWN_MS = 60_000`).  The profile-state helpers
(`createProfileStates`, `isProfileCoolingDown`, `markProfileFailed`,
`markProfileGood`, `nextProfileIndex`) are imported by the run loop and
exercised by src/agent/failover.test.ts but their defining module is not
part of the source tree; they are modelled from the spec below.
Mutation of a profile state is modelled by returning the updated state;
`Date.now()` is the explicit `now` argument. -/

def BASE_COOLDOWN_MS : Nat := 1000
def MAX_COOLDOWN_MS : Nat := 60000

/-- Per-run state for one auth profile (src/agent/types.ts). -/
structure ProfileState where
  index : Nat
  failedAt : Option Int := none
  cooldownMs : Nat := BASE_COOLDOWN_MS
deriving DecidableEq, Repr

/-- Modelled from the spec: `createProfileStates` (module absent from the
source tree) — one fresh state per configured profile, cooldown at the
base value, never failed. -/
def createProfileStates (count : Nat) : List ProfileState :=
  (List.range count).map fun i => { index := i }

/-- Modelled from the spec: `isProfileCoolingDown` (module absent from the
source tree) — a profile is cooling down when `now - failedAt < cooldownMs`
(strict, per the boundary test in failover.test.ts). -/
def isProfileCoolingDown (s : ProfileState) (now : Int) : Bool :=
  match s.failedAt with
  | none => false
  | some t => now - t < (s.cooldownMs : Int)

/-- Modelled from the spec: `markProfileFailed` (module absent from the
source tree) — sets `failedAt = now` and doubles the cooldown up to the
60,000 ms cap. -/
def markProfileFailed (now : Int) (s : ProfileState) : ProfileState :=
  { s with failedAt := some now, cooldownMs := min (s.cooldownMs * 2) MAX_COOLDOWN_MS }

/-- Modelled from the spec: `markProfileGood` (module absent from the
source tree) — clears `failedAt` and resets the cooldown to 1,000 ms. -/
def markProfileGood (s : ProfileState) : ProfileState :=
  { s with failedAt := none, cooldownMs := BASE_COOLDOWN_MS }

/-- Modelled from the spec: `nextProfileIndex(cur, n)` — rotate modulo n. -/
def nextProfileIndex (cur n : Nat) : Nat := (cur + 1) % n

/-- `n` consecutive `markProfileFailed` applications. -/
def iterateFailed (now : Int) : Nat → ProfileState → ProfileState
  | 0, s => s
  | n + 1, s => markProfileFailed now (iterateFailed now n s)

/-! ## In-memory messages (Pi SDK `Message` union, as used by the engine) -/

/-- A `toolCall` content block: identifier, tool name, argument map. -/
structure ToolCallPart where
  id : String
  name : String
  arguments : JsonVal := .obj []

/-- Assistant content blocks: text, reasoning text, or a tool call. -/
inductive ContentPart where
  | text (text : String)
  | thinking (thinking : String)
  | toolCall (tc : ToolCallPart)

/-- A part of structured user content (text or image). -/
inductive UserPart where
  | text (text : String)
  | image

/-- User content: a plain string or a sequence of text/image parts. -/
inductive UserContent where
  | str (s : String)
  | parts (ps : List UserPart)

/-- The fields of an `AssistantMessage`. -/
structure AssistantMsg where
  content : List ContentPart
  api : String := "anthropic-messages"
  provider : String := "anthropic"
  model : String := "unknown"
  usage : Usage := emptyUsage
  stopReason : String := "stop"
  timestamp : Int := 0

/-- The Pi SDK message union: `UserMessage | AssistantMessage | ToolResultMessage`. -/
inductive Message where
  | user (content : UserContent) (timestamp : Int)
  | assistant (msg : AssistantMsg)
  | toolResult (toolCallId : String) (toolName : String)
      (content : List ContentPart) (isError : Bool) (timestamp : Int)

/-- The text blocks of a content sequence, in order
(`content.filter(c => c.type === "text").map(c => c.text)`). -/
def textTexts (content : List ContentPart) : List String :=
  content.filterMap fun c =>
    match c with
    | .text s => some s
    | _ => none

/-- `extractText(message)` from src/agent/transcript-helpers.ts:
concatenated text blocks of an assistant message (`join("")`). -/
def extractText (message : AssistantMsg) : String :=
  String.intercalate "" (textTexts message.content)

/-- `extractToolCalls(message)` from src/agent/transcript-helpers.ts. -/
def extractToolCalls (message : AssistantMsg) : List ToolCallPart :=
  message.content.filterMap fun c =>
    match c with
    | .toolCall tc => some tc
    | _ => none

/-! ## Transcript records (src/sessions/transcript.ts data model) -/

/-- `MessageRole` from src/sessions/transcript.ts. -/
inductive TRole where
  | user
  | assistant
  | system
  | tool
deriving DecidableEq, Repr

/-- The `meta` bag of a transcript record, restricted to the fields the
conversion code reads and writes (`contentBlocks`, `api`, `provider`,
`model`, `usage`, `stopReason` for assistant records; `toolName`,
`isError` for tool records).  `none` models an absent property. -/
structure TMeta where
  contentBlocks : Option (List ContentPart) := none
  api : Option String := none
  provider : Option String := none
  model : Option String := none
  usage : Option Usage := none
  stopReason : Option String := none
  toolName : Option String := none
  isError : Option Bool := none

/-- `TranscriptMessage` from src/sessions/transcript.ts. -/
structure TranscriptMessage where
  role : TRole
  content : String
  ts : Int
  toolCallId : Option String := none
  meta : Option TMeta := none

/-! ## Transcript ↔ message conversion (src/agent/transcript-helpers.ts) -/

/-- `transcriptToMessages(transcript)`: user → UserMessage,
assistant → AssistantMessage (stored `contentBlocks` verbatim when present
— a stored array is always truthy — else a single text block), tool →
ToolResultMessage, system records skipped. -/
def transcriptToMessages (transcript : List TranscriptMessage) : List Message :=
  transcript.filterMap fun t =>
    match t.role with
    | .user => some (.user (.str t.content) t.ts)
    | .assistant =>
      let contentBlocks :=
        match t.meta.bind (·.contentBlocks) with
        | some bs => bs
        | none => [.text t.content]
      some (.assistant
        { content := contentBlocks
          api := (t.meta.bind (·.api)).getD "anthropic-messages"
          provider := (t.meta.bind (·.provider)).getD "anthropic"
          model := (t.meta.bind (·.model)).getD "unknown"
          usage := (t.meta.bind (·.usage)).getD emptyUsage
          stopReason := (t.meta.bind (·.stopReason)).getD "stop"
          timestamp := t.ts })
    | .tool => some (.toolResult
        (t.toolCallId.getD "unknown")
        ((t.meta.bind (·.toolName)).getD "unknown")
        [.text t.content]
        ((t.meta.bind (·.isError)).getD false)
        t.ts)
    | .system => none

/-- `messagesToTranscript(messages)`: the inverse direction, preserving the
assistant block sequence in `meta.contentBlocks` and recording tool-result
fields in `meta`. -/
def messagesToTranscript (messages : List Message) : List TranscriptMessage :=
  messages.map fun msg =>
    match msg with
    | .user content ts =>
      let text :=
        match content with
        | .str s => s
        | .parts ps =>
          String.intercalate "\n" (ps.filterMap fun p =>
            match p with
            | .text s => some s
            | _ => none)
      { role := .user, content := text, ts := ts }
    | .assistant a =>
      { role := .assistant, content := extractText a, ts := a.timestamp
        meta := some
          { contentBlocks := some a.content, api := some a.api
            provider := some a.provider, model := some a.model
            usage := some a.usage, stopReason := some a.stopReason } }
    | .toolResult id name content isError ts =>
      { role := .tool, content := String.intercalate "\n" (textTexts content)
        ts := ts, toolCallId := some id
        meta := some { toolName := some name, isError := some isError } }

/-! ## Orphaned tool-call repair (src/agent/transcript-helpers.ts) -/

/-- The tool-call ids answered in the window following an assistant
message: `toolCallId`s of tool-results encountered before the next
assistant message (user messages are skipped, an assistant message stops
the scan). -/
def answeredIds : List Message → List String
  | [] => []
  | .toolResult id _ _ _ _ :: rest => id :: answeredIds rest
  | .assistant _ :: _ => []
  | .user _ _ :: rest => answeredIds rest

/-- The synthetic error text injected for an orphaned tool call. -/
def MISSING_TOOL_RESULT_TEXT : String :=
  "[Tool result missing — session was interrupted]"

/-- The synthetic error result injected for an orphaned tool call:
matching id and name, a single text part, error flag true, and the
assistant's timestamp. -/
def syntheticToolResult (tc : ToolCallPart) (ts : Int) : Message :=
  .toolResult tc.id tc.name [.text MISSING_TOOL_RESULT_TEXT] true ts

/-- The tool calls of `a` whose id is not answered in the window
(`needsResult.has(tc.id)` after deleting every answered id). -/
def orphanedToolCalls (a : AssistantMsg) (window : List Message) : List ToolCallPart :=
  (extractToolCalls a).filter fun tc => !(answeredIds window).contains tc.id

/-- `repairOrphanedToolCalls(messages)`: after each assistant message,
inject synthetic error results (in tool-call order) for every tool call
not answered before the next assistant message.  The look-ahead scans the
original list, matching the source's scan of `messages` rather than
`result`. -/
def repairOrphanedToolCalls : List Message → List Message
  | [] => []
  | .assistant a :: rest =>
    .assistant a ::
      ((orphanedToolCalls a rest).map (syntheticToolResult · a.timestamp)
        ++ repairOrphanedToolCalls rest)
  | msg :: rest => msg :: repairOrphanedToolCalls rest

/-! ## Context-overflow guard (src/agent/context-guard.ts) -/

/-- `DEFAULT_MAX_TOOL_RESULT_TRUNCATE_CHARS` from src/agent/types.ts. -/
def DEFAULT_MAX_TOOL_RESULT_TRUNCATE_CHARS : Nat := 20000

/-- Per-part body of `truncateOversizedToolResults`: an oversized text part
becomes its cap-length prefix plus `"\n[truncated N chars]"`; non-text and
under-cap parts are unchanged.  String length and slicing are modelled on
the code-point list. -/
def truncatePart (maxChars : Nat) (c : ContentPart) : ContentPart :=
  match c with
  | .text s =>
    if s.data.length ≤ maxChars then c
    else .text (String.mk (s.data.take maxChars)
      ++ "\n[truncated " ++ toString (s.data.length - maxChars) ++ " chars]")
  | _ => c

/-- `truncateOversizedToolResults(messages, maxChars)`: map `truncatePart`
over the content of every tool-result message.  (The source's `changed`
flag only decides whether the original object is reused; the value is the
same either way.) -/
def truncateOversizedToolResults
    (messages : List Message)
    (maxChars : Nat := DEFAULT_MAX_TOOL_RESULT_TRUNCATE_CHARS) : List Message :=
  messages.map fun msg =>
    match msg with
    | .toolResult id name content isError ts =>
      .toolResult id name (content.map (truncatePart maxChars)) isError ts
    | _ => msg

/-- `compactMessages(messages, summarize, recentCount)`, with the
summariser's result passed as the `summary` argument (the source invokes
the callback only in the `length > recentCount` case; the run-loop model
below consumes the LLM oracle accordingly) and `Date.now()` as `now`. -/
def compactMessages (messages : List Message) (summary : String) (now : Int)
    (recentCount : Nat := 10) : List Message :=
  if messages.length ≤ recentCount then messages
  else
    let splitIndex := messages.length - recentCount
    let recentMessages := messages.drop splitIndex
    .user (.str ("[Conversation summary]\n" ++ summary)) now :: recentMessages

/-! ## Tool-result bounding in the run loop (src/agent/run.ts) -/

/-- `DEFAULT_MAX_TOOL_RESULT_CHARS` from src/config (per-result cap used by
the tool invoker; default 50,000). -/
def DEFAULT_MAX_TOOL_RESULT_CHARS : Nat := 50000

/-- `truncateToolResult(text, maxChars)` from src/agent/run.ts: texts over
the cap become their cap-length prefix plus `"\n[truncated]"`. -/
def truncateToolResult (text : String) (maxChars : Nat) : String :=
  if text.data.length ≤ maxChars then text
  else String.mk (text.data.take maxChars) ++ "\n[truncated]"

/-! ## Failover classification (src/agent/failover.ts)

`FailoverReason` here is the six-way union from src/agent/types.ts.
The regular expressions of `classifyByMessage` are modelled by a small
matcher over an explicit token language covering exactly the constructs
the patterns use: literals (case-sensitive or not), `.`, `.*`, `.?`,
`d?`, and `\s*`.  `re.test` is unanchored search.  The matcher carries
fuel so that it is structurally recursive; the fuel passed by `reTest`
exceeds every possible backtracking depth (each step either consumes an
input character or drops a pattern token). -/

inductive FailoverReason where
  | auth
  | rate_limit
  | billing
  | timeout
  | quota
  | unknown
deriving DecidableEq, Repr

/-- `classifyByStatus(status)` from src/agent/failover.ts. -/
def classifyByStatus (status : Int) : Option FailoverReason :=
  if status = 401 ∨ status = 403 then some .auth
  else if status = 402 then some .billing
  else if status = 429 then some .rate_limit
  else if status = 408 then some .timeout
  else if status = 413 then some .quota
  else if status ∈ [500, 502, 503, 521, 522, 523, 524, 529] then some .timeout
  else none

/-- Regex tokens: case-sensitive / case-insensitive literal, `.`, `.*`,
`.?`, optional case-insensitive literal `c?`, and `\s*`. -/
inductive RTok where
  | lit (c : Char)
  | liti (c : Char)
  | dot
  | dotStar
  | dotOpt
  | litiOpt (c : Char)
  | wsStar

/-- Case-insensitive literal run (for an `/i` pattern). -/
def lits (s : String) : List RTok := s.data.map .liti

/-- Case-sensitive literal run (for a pattern without the `i` flag). -/
def litcs (s : String) : List RTok := s.data.map .lit

/-- Can pattern `p` match some prefix of `xs`?  Fuel decreases on every
step; `p.length + xs.length * (p.length + 1) + 1` steps always suffice
because every recursive call either consumes an input character or
shortens the pattern. -/
def matchHere (fuel : Nat) (p : List RTok) (xs : List Char) : Bool :=
  match fuel with
  | 0 => false
  | fuel + 1 =>
    match p, xs with
    | [], _ => true
    | .lit c :: p2, x :: xs2 => c = x && matchHere fuel p2 xs2
    | .liti c :: p2, x :: xs2 => c.toLower = x.toLower && matchHere fuel p2 xs2
    | .dot :: p2, _ :: xs2 => matchHere fuel p2 xs2
    | .dotStar :: p2, xs2 =>
      matchHere fuel p2 xs2 ||
        (match xs2 with
         | _ :: xs3 => matchHere fuel (.dotStar :: p2) xs3
         | [] => false)
    | .dotOpt :: p2, xs2 =>
      matchHere fuel p2 xs2 ||
        (match xs2 with
         | _ :: xs3 => matchHere fuel p2 xs3
         | [] => false)
    | .litiOpt c :: p2, xs2 =>
      matchHere fuel p2 xs2 ||
        (match xs2 with
         | x :: xs3 => c.toLower = x.toLower && matchHere fuel p2 xs3
         | [] => false)
    | .wsStar :: p2, xs2 =>
      matchHere fuel p2 xs2 ||
        (match xs2 with
         | x :: xs3 => x.isWhitespace && matchHere fuel (.wsStar :: p2) xs3
         | [] => false)
    | _ :: _, [] => false

/-- Unanchored search from every start position. -/
def reSearch (p : List RTok) : List Char → Bool
  | [] => matchHere (p.length + 1) p []
  | x :: xs =>
    matchHere (p.length + (x :: xs).length * (p.length + 1) + 1) p (x :: xs)
      || reSearch p xs

/-- `re.test(msg)` for one modelled pattern. -/
def reTest (p : List RTok) (msg : String) : Bool := reSearch p msg.data

/-- `AUTH_PATTERNS` from src/agent/failover.ts. -/
def AUTH_PATTERNS : List (List RTok) :=
  [ lits "invalid" ++ [.dotStar] ++ lits "api" ++ [.dotOpt] ++ lits "key"
  , lits "invalid" ++ [.dotStar] ++ lits "auth"
  , lits "authentication" ++ [.dotStar] ++ lits "failed"
  , lits "unauthorized"
  , lits "forbidden"
  , lits "permission" ++ [.dot] ++ lits "denied"
  , lits "invalid" ++ [.dotStar] ++ lits "x-api-key"
  , lits "api" ++ [.dotOpt] ++ lits "key" ++ [.dotStar] ++ lits "not"
      ++ [.dotStar] ++ lits "valid"
  , lits "invalid" ++ [.dotStar] ++ lits "bearer" ]

/-- `RATE_LIMIT_PATTERNS` from src/agent/failover.ts. -/
def RATE_LIMIT_PATTERNS : List (List RTok) :=
  [ lits "rate" ++ [.dotOpt] ++ lits "limit"
  , lits "too" ++ [.dot] ++ lits "many" ++ [.dot] ++ lits "requests"
  , lits "overloaded"
  , lits "throttl"
  , lits "request" ++ [.dot] ++ lits "limit"
  , lits "capacity" ]

/-- `BILLING_PATTERNS` from src/agent/failover.ts. -/
def BILLING_PATTERNS : List (List RTok) :=
  [ lits "billing"
  , lits "payment" ++ [.dotStar] ++ lits "required"
  , lits "insufficient" ++ [.dotStar] ++ lits "funds"
  , lits "account" ++ [.dotStar] ++ lits "suspended"
  , lits "quota" ++ [.dotStar] ++ lits "exceeded"
  , lits "credit" ]

/-- `TIMEOUT_PATTERNS` from src/agent/failover.ts
(`/timed?\s*out/i` is literal `time`, optional `d`, `\s*`, `out`). -/
def TIMEOUT_PATTERNS : List (List RTok) :=
  [ lits "timeout"
  , lits "time" ++ [.litiOpt 'd', .wsStar] ++ lits "out"
  , litcs "ETIMEDOUT"
  , litcs "ESOCKETTIMEDOUT"
  , litcs "ECONNRESET"
  , litcs "ECONNABORTED"
  , litcs "ECONNREFUSED"
  , lits "network" ++ [.dotStar] ++ lits "error"
  , lits "fetch" ++ [.dotStar] ++ lits "failed" ]

/-- `classifyByMessage(msg)` from src/agent/failover.ts: first matching
pattern family in the order auth, rate-limit, billing, timeout. -/
def classifyByMessage (msg : String) : Option FailoverReason :=
  if AUTH_PATTERNS.any (reTest · msg) then some .auth
  else if RATE_LIMIT_PATTERNS.any (reTest · msg) then some .rate_limit
  else if BILLING_PATTERNS.any (reTest · msg) then some .billing
  else if TIMEOUT_PATTERNS.any (reTest · msg) then some .timeout
  else none

/-- An error value as seen by `classifyFailoverReason`: the `status`
property when it is a number, whether the value is an `Error` instance,
its `name` and `message`, and its `String(err)` rendering (for non-Error
values; a plain object renders as `"[object Object]"`). -/
structure ErrLike where
  status : Option Int := none
  statusCode : Option Int := none
  responseStatus : Option Int := none
  isErrorInstance : Bool := false
  name : String := "Error"
  message : String := ""
  stringRep : String := "[object Object]"

/-- `classifyFailoverReason(err)` from src/agent/failover.ts: direct
`.status` (only — no `.statusCode` or `.response.status` fallback), then
the `TimeoutError`/`AbortError` name check, then message patterns, else
`unknown`. -/
def classifyFailoverReason (e : ErrLike) : FailoverReason :=
  let afterStatus :=
    if e.isErrorInstance && (e.name = "TimeoutError" || e.name = "AbortError")
    then FailoverReason.timeout
    else
      let msg := if e.isErrorInstance then e.message else e.stringRep
      (classifyByMessage msg).getD .unknown
  match e.status with
  | some s =>
    match classifyByStatus s with
    | some r => r
    | none => afterStatus
  | none => afterStatus

/-- `isRetriableFailoverReason(reason)` from src/agent/failover.ts. -/
def isRetriableFailoverReason (reason : FailoverReason) : Bool :=
  reason = .auth || reason = .rate_limit || reason = .billing || reason = .timeout

/-! ## Session keys (src/sessions/session-key.ts)

Strings are processed as code-point lists.  `trim`, `toLowerCase` and
`\s` are modelled with `Char.isWhitespace` / `Char.toLower` (adequate for
the ASCII-oriented safe character class the code works with). -/

inductive PeerKind where
  | direct
  | group
  | channel
deriving DecidableEq, Repr

/-- The string form of a `PeerKind` (TypeScript string-literal union). -/
def PeerKind.toStr : PeerKind → String
  | .direct => "direct"
  | .group => "group"
  | .channel => "channel"

structure SessionKeyParams where
  agentId : Option String := none
  channel : String
  accountId : Option String := none
  peerKind : PeerKind
  peerId : String

structure ParsedSessionKey where
  agentId : String
  channel : String
  accountId : String
  peerKind : PeerKind
  peerId : String
deriving DecidableEq, Repr

def MAX_SEGMENT_LEN : Nat := 128

/-- A character of the strip class `[a-z0-9_.@+:-]`, by code point
(`_` 95, `.` 46, `@` 64, `+` 43, `:` 58, `-` 45). -/
def isSafeChar (c : Char) : Bool :=
  (97 ≤ c.toNat && c.toNat ≤ 122) || (48 ≤ c.toNat && c.toNat ≤ 57)
    || c.toNat = 95 || c.toNat = 46 || c.toNat = 64
    || c.toNat = 43 || c.toNat = 58 || c.toNat = 45

/-- A character of `SAFE_SEGMENT_RE`'s class `[a-zA-Z0-9_.@+:-]`. -/
def isSafeCharCI (c : Char) : Bool :=
  isSafeChar c || (65 ≤ c.toNat && c.toNat ≤ 90)

/-- A `\s` character (ASCII whitespace; JS `\s` additionally covers
Unicode space separators, which the safe classes reject anyway). -/
def jsIsWs (c : Char) : Bool :=
  c.toNat = 32 || c.toNat = 9 || c.toNat = 10
    || c.toNat = 13 || c.toNat = 12 || c.toNat = 11

/-- `toLowerCase` on a character: `A`-`Z` shift by 32, everything else
unchanged (the ASCII lowering relevant to the safe classes). -/
def jsToLower (c : Char) : Char :=
  if 65 ≤ c.toNat ∧ c.toNat ≤ 90 then Char.ofNat (c.toNat + 32) else c

/-- `String.prototype.trim`. -/
def trimChars (l : List Char) : List Char :=
  ((l.dropWhile jsIsWs).reverse.dropWhile jsIsWs).reverse

/-- `replace(/\s+/g, "_")`: each maximal whitespace run becomes one `_`.
`prevWs` records whether the previous character was whitespace. -/
def collapseWsAux (prevWs : Bool) : List Char → List Char
  | [] => []
  | c :: rest =>
    if jsIsWs c then
      if prevWs then collapseWsAux true rest
      else '_' :: collapseWsAux true rest
    else c :: collapseWsAux false rest

def collapseWs (l : List Char) : List Char := collapseWsAux false l

/-- `normalizeSegment(raw, fallback)` from src/sessions/session-key.ts:
trim; empty → fallback; lowercase then collapse whitespace to `_`; if the
result is in the safe class clamp to 128, else strip unsafe characters
and clamp (falling back when nothing remains). -/
def normalizeSegment (raw fallback : String) : String :=
  let trimmed := trimChars raw.data
  if trimmed = [] then fallback
  else
    let lower := collapseWs (trimmed.map jsToLower)
    if lower ≠ [] && lower.all isSafeCharCI then
      String.mk (lower.take MAX_SEGMENT_LEN)
    else
      let cleaned := lower.filter isSafeChar
      if cleaned = [] then String.mk (fallback.data.take MAX_SEGMENT_LEN)
      else String.mk (cleaned.take MAX_SEGMENT_LEN)

/-- `buildSessionKey(params)`:
`agent:<a>:channel:<c>:account:<ac>:peer:<peerKind>:<peerId>` with every
segment except `peerKind` normalised. -/
def buildSessionKey (params : SessionKeyParams) : String :=
  let agentId := normalizeSegment (params.agentId.getD "main") "main"
  let channel := normalizeSegment params.channel "unknown"
  let accountId := normalizeSegment (params.accountId.getD "default") "default"
  let peerId := normalizeSegment params.peerId "unknown"
  "agent:" ++ agentId ++ ":channel:" ++ channel ++ ":account:" ++ accountId
    ++ ":peer:" ++ params.peerKind.toStr ++ ":" ++ peerId

/-- Consume a literal. -/
def eatLit : List Char → List Char → Option (List Char)
  | [], xs => some xs
  | _ :: _, [] => none
  | c :: cs, x :: xs => if c = x then eatLit cs xs else none

/-- Split off everything before the first `':'` (and drop that colon);
`none` when no colon exists. -/
def takeSeg : List Char → Option (List Char × List Char)
  | [] => none
  | c :: rest =>
    if c = ':' then some ([], rest)
    else (takeSeg rest).map fun p => (c :: p.1, p.2)

/-- A nonempty colon-free segment followed by `':'` (one `([^:]+):` group). -/
def segUpToColon (l : List Char) : Option (List Char × List Char) :=
  match takeSeg l with
  | some (s, r) => if s = [] then none else some (s, r)
  | none => none

/-- `parseSessionKey(key)` from src/sessions/session-key.ts.  The regex
`^agent:([^:]+):channel:([^:]+):account:([^:]+):peer:(direct|group|channel):(.+)$`
is deterministic — each `[^:]+` group is colon-free, so it must end at
the first following colon and no backtracking across groups is possible;
the alternation branches start with distinct literals.  The parser below
realises exactly that decomposition. -/
def parseSessionKey (key : String) : Option ParsedSessionKey := do
  let s1 ← eatLit "agent:".data key.data
  let (a, s2) ← segUpToColon s1
  let s3 ← eatLit "channel:".data s2
  let (c, s4) ← segUpToColon s3
  let s5 ← eatLit "account:".data s4
  let (ac, s6) ← segUpToColon s5
  let s7 ← eatLit "peer:".data s6
  let (pk, s8) ←
    match eatLit "direct:".data s7 with
    | some r => some (PeerKind.direct, r)
    | none =>
      match eatLit "group:".data s7 with
      | some r => some (PeerKind.group, r)
      | none =>
        match eatLit "channel:".data s7 with
        | some r => some (PeerKind.channel, r)
        | none => none
  if s8 = [] then none
  else some ⟨String.mk a, String.mk c, String.mk ac, pk, String.mk s8⟩

/-! ## JSONL transcript reading (src/sessions/transcript.ts)

A transcript file is `raw.split("\n")` processed line by line.  Each line
is modelled by its trim/`JSON.parse` outcome: `blank` (trims to the empty
string), `malformed` (`JSON.parse` throws), or `parsed j`. -/

inductive RawLine where
  | blank
  | malformed
  | parsed (j : JsonVal)

/-- A record as pushed by `loadTranscript`: the raw `toolCallId`/`meta`
values are copied without validation (and dropped when falsy), `ts`
defaults to 0 when not a number. -/
structure LoadedMessage where
  role : String
  content : String
  ts : Int
  toolCallId : Option JsonVal := none
  meta : Option JsonVal := none

/-- `parsed.type === "session"`: strict string comparison, true exactly
when the `type` field is the string `"session"`. -/
def isHeaderLine (j : JsonVal) : Bool :=
  match j.lookup "type" with
  | some (.str s) => s = "session"
  | _ => false

/-- `typeof parsed.k === "string" ? parsed.k : absent`. -/
def strField (j : JsonVal) (k : String) : Option String :=
  match j.lookup k with
  | some (.str s) => some s
  | _ => none

/-- One step of `loadTranscript`'s line loop: skip blank and malformed
lines and session headers; push a record when `role` and `content` are
strings. -/
def loadLine : RawLine → Option LoadedMessage
  | .blank => none
  | .malformed => none
  | .parsed j =>
    if isHeaderLine j then none
    else
      match strField j "role", strField j "content" with
      | some r, some c =>
        some
          { role := r, content := c
            ts := match j.lookup "ts" with
              | some (.num n) => n
              | _ => 0
            toolCallId := match j.lookup "toolCallId" with
              | some v => if v.truthy then some v else none
              | none => none
            meta := match j.lookup "meta" with
              | some v => if v.truthy then some v else none
              | none => none }
      | _, _ => none

/-- `loadTranscript` over the file's lines (an absent file is the empty
line list): ordered records of the lines that pass `loadLine`. -/
def loadTranscriptLines (lines : List RawLine) : List LoadedMessage :=
  lines.filterMap loadLine

/-- One step of `countMessages`'s line loop: count any parsed non-header
line whose `role` is a string — the `content` field is not checked. -/
def countLine : RawLine → Bool
  | .blank => false
  | .malformed => false
  | .parsed j =>
    if isHeaderLine j then false
    else (strField j "role").isSome

/-- `countMessages` over the file's lines. -/
def countMessages (lines : List RawLine) : Nat :=
  (lines.filter countLine).length

/-! ## JSONL transcript writing (src/sessions/transcript.ts)

The filesystem is modelled as the state of one session's transcript file
(`none` = absent) plus whether its directory exists; file content is the
appended text.  `JSON.stringify(entry)` is abstracted by `encodeEntry`
(its exact rendering is irrelevant to the write path's structure). -/

structure FsState where
  dirExists : Bool
  file : Option String

/-- A write-side transcript entry after `appendMessages` fills `ts` with
`Date.now()` when absent.  Serialisation stand-in for
`JSON.stringify(entry)`. -/
def encodeEntry (m : TranscriptMessage) : String :=
  let role := match m.role with
    | .user => "user"
    | .assistant => "assistant"
    | .system => "system"
    | .tool => "tool"
  role ++ "|" ++ m.content ++ "|" ++ toString m.ts
    ++ "|" ++ (m.toolCallId.getD "") ++ "|" ++ (if m.meta.isSome then "meta" else "")

/-- The header line written by `ensureTranscriptFile`. -/
def encodeHeader (sessionKey : String) (now : Int) : String :=
  "session|" ++ sessionKey ++ "|" ++ toString now

/-- `ensureTranscriptFile(filePath, sessionKey)`: ensure the directory,
then create the file with a single header line unless it exists. -/
def ensureTranscriptFile (sessionKey : String) (now : Int) (fs : FsState) : FsState :=
  let fs := { fs with dirExists := true }
  match fs.file with
  | some _ => fs
  | none => { fs with file := some (encodeHeader sessionKey now ++ "\n") }

/-- `appendMessages(sessionKey, messages)`: an empty batch returns before
touching the filesystem; otherwise ensure the file and append all records
joined by newlines in a single write. -/
def appendMessages (sessionKey : String) (messages : List TranscriptMessage)
    (now : Int) (fs : FsState) : FsState :=
  if messages.length = 0 then fs
  else
    let fs := ensureTranscriptFile sessionKey now fs
    let lines := String.intercalate "\n" (messages.map encodeEntry)
    { fs with file := some (fs.file.getD "" ++ lines ++ "\n") }

/-! ## The run loop (src/agent/run.ts, `runAgent`)

The loop is embedded as a state machine over an oracle environment:
- `llm k` is the outcome of the k-th LLM request (including summariser
  requests made during compaction).  A failed request carries the
  `classifyError` classification of the thrown value — `classifyError`
  lives in the failover module absent from the source tree, so the
  classification itself is oracle data (the loop only branches on it).
- `tool k` is the outcome of the k-th tool-call dispatch (missing tool,
  successful output text, or a raised error).
- `Date.now()` is the constant `now`; the cancellation token is a
  pre-set `aborted` flag with its abort `reason` (`throwIfAborted`
  checks it; a sleep with a pre-aborted signal completes normally since
  the abort event never fires for it).
- Only the persistence calls (`appendMessages`, `updateSessionMeta`) are
  recorded, as `Effect`s; the event callback persists nothing and is not
  modelled.  Workspace scaffolding touches no transcript state. -/

/-- The seven-way `FailoverReason` from src/agent/types.ts (the variant
with `context_overflow` used by the run loop). -/
inductive RunFailoverReason where
  | auth
  | rate_limit
  | billing
  | timeout
  | quota
  | context_overflow
  | unknown
deriving DecidableEq, Repr

/-- Modelled from the spec: `isRetriable` (module absent from the source
tree) — auth, rate-limit, billing and timeout are retriable. -/
def isRetriableRun (reason : RunFailoverReason) : Bool :=
  reason = .auth || reason = .rate_limit || reason = .billing || reason = .timeout

/-- Outcome of one LLM request. -/
inductive CallOutcome where
  | success (msg : AssistantMsg)
  | failure (reason : RunFailoverReason) (message : String)

/-- Outcome of one tool-call dispatch. -/
inductive ToolOutcome where
  | missing
  | output (text : String)
  | raises (message : String)

/-- The ways `runAgent` terminates by exception: `signal.throwIfAborted()`,
the terminal-overflow `Error`, a rethrown provider error (non-retriable,
or retriable with the budget consumed), and the
`"LLM call failed: all retries exhausted"` `Error`. -/
inductive RunError where
  | cancelled (reason : String)
  | terminalOverflow (original : String)
  | provider (reason : RunFailoverReason) (message : String)
  | retriesExhausted
deriving DecidableEq, Repr

/-- A persistence call made by the run loop. -/
inductive Effect where
  | appendTranscript (msgs : List TranscriptMessage)
  | updateMeta (model : String) (totalTokens : Int)

/-- `RunResult` from src/agent/types.ts (as produced by src/agent/run.ts). -/
structure RunResult where
  reply : String
  usage : Usage
  lastCallUsage : Usage
  iterations : Nat
  maxIterationsReached : Bool

/-- The oracle environment plus the run's configuration snapshot. -/
structure RunEnv where
  llm : Nat → CallOutcome
  tool : Nat → ToolOutcome
  now : Int
  aborted : Bool
  abortReason : String
  transcript : List TranscriptMessage
  userMessage : String
  numProfiles : Nat
  maxIterations : Nat
  maxRetries : Nat
  maxToolResultChars : Nat
  modelId : String

/-- The mutable state of one `runAgent` invocation. -/
structure RunSt where
  messages : List Message
  states : List ProfileState
  profileIndex : Nat
  totalUsage : Usage
  lastCallUsage : Usage
  llmCalls : Nat
  toolCalls : Nat
  effects : List Effect
  compactionAttempted : Bool
  truncationAttempted : Bool

/-- Update `states[i]` in place (`markProfileGood(profileStates[i])`). -/
def updateProfile (states : List ProfileState) (i : Nat)
    (f : ProfileState → ProfileState) : List ProfileState :=
  match states[i]? with
  | some s => states.set i (f s)
  | none => states

/-- `findAvailableProfile(states, startIndex, count)` from src/agent/run.ts:
first profile at `(startIndex + i) % count` (i = 0.., one lap) that is not
cooling down. -/
def findAvailableProfile (states : List ProfileState) (startIndex count : Nat)
    (now : Int) : Option ProfileState :=
  (List.range count).findSome? fun i =>
    match states[(startIndex + i) % count]? with
    | some s => if isProfileCoolingDown s now then none else some s
    | none => none

/-- The inner retry loop of one iteration (`while (retries <= maxRetries)`),
returning the assistant message on success, `none` when the loop exits
with `assistantMsg` still undefined, or the propagated error.  State
threads through; errors leave the already-performed state as is. -/
def attemptLLM (env : RunEnv) (st : RunSt) (retries : Nat) :
    Except RunError (Option AssistantMsg) × RunSt :=
  if hwhile : retries > env.maxRetries then (.ok none, st)
  else if env.aborted then (.error (.cancelled env.abortReason), st)
  else
    match findAvailableProfile st.states st.profileIndex env.numProfiles env.now with
    | none =>
      -- all profiles cooling down: sleep the shortest remaining cooldown
      -- (a pre-aborted signal does not reject the sleep), then retry
      attemptLLM env st (retries + 1)
    | some profile =>
      let st := { st with profileIndex := profile.index }
      match env.llm st.llmCalls with
      | .success msg =>
        (.ok (some msg),
          { st with
              llmCalls := st.llmCalls + 1
              states := updateProfile st.states st.profileIndex markProfileGood
              lastCallUsage := msg.usage
              totalUsage := mergeUsage st.totalUsage msg.usage })
      | .failure reason emsg =>
        let st := { st with llmCalls := st.llmCalls + 1 }
        if reason = .context_overflow then
          if _hca : st.compactionAttempted = false then
            let st := { st with compactionAttempted := true }
            if st.messages.length ≤ 10 then
              -- compactMessages returns the input unchanged without
              -- invoking the summariser
              attemptLLM env st retries
            else
              match env.llm st.llmCalls with
              | .success summaryMsg =>
                attemptLLM env
                  { st with
                      llmCalls := st.llmCalls + 1
                      messages := compactMessages st.messages
                        (extractText summaryMsg) env.now }
                  retries
              | .failure r2 m2 =>
                -- the summariser call rejected inside the catch handler;
                -- its error propagates out of the run
                (.error (.provider r2 m2), { st with llmCalls := st.llmCalls + 1 })
          else if _htr : st.truncationAttempted = false then
            let st := { st with
              truncationAttempted := true
              messages := truncateOversizedToolResults st.messages }
            attemptLLM env st retries
          else
            (.error (.terminalOverflow emsg), st)
        else if hretr : isRetriableRun reason = true ∧ retries < env.maxRetries then
          let st := { st with
            states := updateProfile st.states st.profileIndex (markProfileFailed env.now)
            profileIndex := nextProfileIndex st.profileIndex env.numProfiles }
          attemptLLM env st (retries + 1)
        else
          (.error (.provider reason emsg), st)
termination_by
  (env.maxRetries + 1 - retries,
    (if st.compactionAttempted then 0 else 1) + (if st.truncationAttempted then 0 else 1))
decreasing_by
  all_goals simp_all
  all_goals omega

/-- The tool-execution loop of one iteration: between tool calls the
signal is checked; a missing tool or a raised error becomes an error
tool-result, otherwise the output text is bounded by
`truncateToolResult`. -/
def execTools (env : RunEnv) : List ToolCallPart → RunSt → Except RunError Unit × RunSt
  | [], st => (.ok (), st)
  | tc :: rest, st =>
    if env.aborted then (.error (.cancelled env.abortReason), st)
    else
      let result : Message :=
        match env.tool st.toolCalls with
        | .missing =>
          .toolResult tc.id tc.name [.text ("Unknown tool: " ++ tc.name)] true env.now
        | .output text =>
          .toolResult tc.id tc.name
            [.text (truncateToolResult text env.maxToolResultChars)] false env.now
        | .raises m =>
          .toolResult tc.id tc.name [.text ("Tool execution error: " ++ m)] true env.now
      execTools env rest
        { st with toolCalls := st.toolCalls + 1, messages := st.messages ++ [result] }

/-- The two persistence calls: append `messages.slice(historyLength - 1)`
(converted) to the transcript, then update the session metadata with the
model id and total token count. -/
def persistEffects (env : RunEnv) (historyLength : Nat) (st : RunSt) : RunSt :=
  let newMessages := st.messages.drop (historyLength - 1)
  { st with effects := st.effects ++
      [ Effect.appendTranscript (messagesToTranscript newMessages)
      , Effect.updateMeta env.modelId st.totalUsage.totalTokens ] }

/-- The reply recovered on the max-iterations path: text of the last
assistant message, `""` when there is none. -/
def lastAssistantText (msgs : List Message) : String :=
  (msgs.reverse.findSome? fun m =>
    match m with
    | .assistant a => some (extractText a)
    | _ => none).getD ""

/-- The iteration loop (`for (iterations = 0; iterations < maxIterations;
iterations++)`), with `remaining = maxIterations - iteration`.  Reaching
`remaining = 0` is the max-iterations termination phase, which persists
and returns `maxIterationsReached = true`. -/
def iterLoop (env : RunEnv) (historyLength : Nat) :
    Nat → Nat → RunSt → Except RunError RunResult × RunSt
  | 0, iteration, st =>
    let st := persistEffects env historyLength st
    (.ok
      { reply := lastAssistantText st.messages
        usage := st.totalUsage
        lastCallUsage := st.lastCallUsage
        iterations := iteration
        maxIterationsReached := true }, st)
  | remaining + 1, iteration, st =>
    if env.aborted then (.error (.cancelled env.abortReason), st)
    else
      match attemptLLM env st 0 with
      | (.error e, st) => (.error e, st)
      | (.ok none, st) => (.error .retriesExhausted, st)
      | (.ok (some assistantMsg), st) =>
        let st := { st with messages := st.messages ++ [.assistant assistantMsg] }
        let tcs := extractToolCalls assistantMsg
        if tcs.isEmpty then
          let st := persistEffects env historyLength st
          (.ok
            { reply := extractText assistantMsg
              usage := st.totalUsage
              lastCallUsage := st.lastCallUsage
              iterations := iteration + 1
              maxIterationsReached := false }, st)
        else
          match execTools env tcs st with
          | (.error e, st) => (.error e, st)
          | (.ok _, st) =>
            iterLoop env historyLength remaining (iteration + 1)
              { st with compactionAttempted := false, truncationAttempted := false }

/-- `runAgent(params)`: load the transcript, convert, repair orphans,
append the user message, then run the iteration loop.  Returns the
result or propagated error together with the persistence effects
performed. -/
def runAgent (env : RunEnv) : Except RunError RunResult × List Effect :=
  let history := repairOrphanedToolCalls (transcriptToMessages env.transcript)
  let messages := history ++ [.user (.str env.userMessage) env.now]
  let historyLength := messages.length
  let st0 : RunSt :=
    { messages := messages
      states := createProfileStates env.numProfiles
      profileIndex := 0
      totalUsage := emptyUsage
      lastCallUsage := emptyUsage
      llmCalls := 0
      toolCalls := 0
      effects := []
      compactionAttempted := false
      truncationAttempted := false }
  let (r, st) := iterLoop env historyLength env.maxIterations 0 st0
  (r, st.effects)

/-! ## Helper notions used by the theorem statements -/

/-- What one round trip through `messagesToTranscript` then
`transcriptToMessages` does to a single message: assistant messages are
reproduced exactly; user content is flattened to its text; tool-result
content collapses to a single text part with the parts joined by
newlines. -/
def rtMsg (m : Message) : Message :=
  match m with
  | .user c ts =>
    let text :=
      match c with
      | .str s => s
      | .parts ps =>
        String.intercalate "\n" (ps.filterMap fun p =>
          match p with
          | .text s => some s
          | _ => none)
    .user (.str text) ts
  | .assistant a => .assistant a
  | .toolResult id name content isError ts =>
    .toolResult id name [.text (String.intercalate "\n" (textTexts content))] isError ts

/-- The fields claim C8 requires the round trip to preserve: the role and
timestamp always; for assistant messages the whole message including its
content-block sequence; for tool results the tool-call id, tool name and
error flag. -/
def PreservedFields (m m2 : Message) : Prop :=
  (∀ c ts, m = .user c ts → ∃ c2, m2 = .user c2 ts)
  ∧ (∀ a, m = .assistant a → m2 = .assistant a)
  ∧ (∀ id name content isError ts, m = .toolResult id name content isError ts →
      ∃ content2, m2 = .toolResult id name content2 isError ts)

/-- A well-formed normalised segment: nonempty, at most 128 code points,
all characters in the strip class. -/
def SegGood (s : String) : Prop :=
  s.data ≠ [] ∧ s.data.length ≤ 128 ∧ ∀ c ∈ s.data, isSafeChar c = true

/-! # Theorems -/

theorem strData_append (a b : String) : (a ++ b).data = a.data ++ b.data := rfl

/-! ## C3 — usage accumulation -/

/-- C3: usage accumulation across successive LLM calls in one run
(`mergeUsage`, the accumulator the run loop applies after every
successful call) sums the input, output and total token counters and the
corresponding cost fields, but replaces the cache-read/cache-write
counters and their costs with the latest call's values. -/
theorem c3_mergeUsage_sums_and_replaces (acc delta : Usage) :
    (mergeUsage acc delta).input = acc.input + delta.input
  ∧ (mergeUsage acc delta).output = acc.output + delta.output
  ∧ (mergeUsage acc delta).totalTokens = acc.totalTokens + delta.totalTokens
  ∧ (mergeUsage acc delta).cost.input = acc.cost.input + delta.cost.input
  ∧ (mergeUsage acc delta).cost.output = acc.cost.output + delta.cost.output
  ∧ (mergeUsage acc delta).cost.total = acc.cost.total + delta.cost.total
  ∧ (mergeUsage acc delta).cacheRead = delta.cacheRead
  ∧ (mergeUsage acc delta).cacheWrite = delta.cacheWrite
  ∧ (mergeUsage acc delta).cost.cacheRead = delta.cost.cacheRead
  ∧ (mergeUsage acc delta).cost.cacheWrite = delta.cost.cacheWrite :=
  ⟨rfl, rfl, rfl, rfl, rfl, rfl, rfl, rfl, rfl, rfl⟩

/-! ## C4 — cooldown backoff -/

theorem minDouble (a : Nat) :
    min (min a 60000 * 2) 60000 = min (a * 2) 60000 := by
  omega

theorem iterateFailed_cooldown (now : Int) (n : Nat) (s : ProfileState)
    (h : s.cooldownMs = 1000) :
    (iterateFailed now n s).cooldownMs = min (2 ^ n * 1000) 60000 := by
  induction n with
  | zero => simpa [iterateFailed] using h
  | succ n ih =>
    have h2 : (iterateFailed now (n + 1) s).cooldownMs
        = min ((iterateFailed now n s).cooldownMs * 2) 60000 := rfl
    rw [h2, ih, minDouble, pow_succ]
    ring_nf

/-- C4: `markProfileFailed` stamps the failure time and doubles the
cooldown up to the 60,000 ms cap; `markProfileGood` clears the failure
and resets the cooldown to 1,000 ms; `n` consecutive failures starting
from 1,000 ms give `min(2^n * 1000, 60000)`, a monotonically increasing
sequence, and a success returns the cooldown to 1,000 ms. -/
theorem c4_cooldown_backoff (s : ProfileState) (now : Int) (n : Nat) :
    (markProfileFailed now s).failedAt = some now
  ∧ (markProfileFailed now s).cooldownMs = min (s.cooldownMs * 2) 60000
  ∧ (markProfileGood s).failedAt = none
  ∧ (markProfileGood s).cooldownMs = 1000
  ∧ (iterateFailed now n { s with cooldownMs := 1000 }).cooldownMs
      = min (2 ^ n * 1000) 60000
  ∧ min (2 ^ n * 1000) 60000 ≤ min (2 ^ (n + 1) * 1000) 60000
  ∧ (markProfileGood (iterateFailed now n s)).cooldownMs = 1000 := by
  refine ⟨rfl, rfl, rfl, rfl, iterateFailed_cooldown now n _ rfl, ?_, rfl⟩
  have hp : 2 ^ n * 1000 ≤ 2 ^ (n + 1) * 1000 :=
    Nat.mul_le_mul_right 1000 (Nat.pow_le_pow_right (by omega) (Nat.le_succ n))
  omega

/-! ## C10 — empty append is a filesystem no-op -/

/-- C10: `appendMessages` with an empty batch returns before resolving the
path, ensuring the directory, or touching the file: the filesystem state
is unchanged — an absent transcript stays absent (no header written) and
an existing one keeps its exact content. -/
theorem c10_appendMessages_empty_noop (key : String) (now : Int) (fs : FsState) :
    appendMessages key [] now fs = fs
  ∧ (appendMessages key [] now fs).file = fs.file
  ∧ (appendMessages key [] now fs).dirExists = fs.dirExists :=
  ⟨rfl, rfl, rfl⟩

/-! ## C5 — status-code classification -/

/-- C5 counterexample: `classifyFailoverReason` reads only the direct
`.status` property, so a 429 carried in `.statusCode` and a 401 carried
in `.response.status` classify as `unknown` (the plain object renders as
`"[object Object]"`, which matches no message pattern); and status 501,
although ≥ 500, is not in the transient-status list and also classifies
as `unknown`.  This refutes the claimed nested extraction and the claimed
blanket `status ≥ 500 → timeout` rule. -/
theorem c5_counterexample :
    classifyFailoverReason { statusCode := some 429 } = .unknown
  ∧ classifyFailoverReason { statusCode := some 429 } ≠ .rate_limit
  ∧ classifyFailoverReason { responseStatus := some 401 } = .unknown
  ∧ classifyFailoverReason { responseStatus := some 401 } ≠ .auth
  ∧ classifyFailoverReason { status := some 501 } = .unknown
  ∧ classifyFailoverReason { status := some 501 } ≠ .timeout := by
  refine ⟨?_, ?_, ?_, ?_, ?_, ?_⟩ <;> decide

/-- C5 amended: for an error whose direct `.status` property is a number,
401/403 → auth, 429 → rate_limit, 402 → billing, 408 → timeout,
413 → quota, and the specific transient server statuses
500/502/503/521/522/523/524/529 → timeout (other ≥ 500 statuses fall
through to message classification); whenever the status classifies, that
classification wins regardless of the error's message. -/
theorem c5_amended_status_classification (e : ErrLike) (s : Int) (r : FailoverReason)
    (hs : e.status = some s) :
    (s = 401 ∨ s = 403 → classifyFailoverReason e = .auth)
  ∧ (s = 429 → classifyFailoverReason e = .rate_limit)
  ∧ (s = 402 → classifyFailoverReason e = .billing)
  ∧ (s = 408 → classifyFailoverReason e = .timeout)
  ∧ (s = 413 → classifyFailoverReason e = .quota)
  ∧ (s ∈ [500, 502, 503, 521, 522, 523, 524, 529] → classifyFailoverReason e = .timeout)
  ∧ (classifyByStatus s = some r → classifyFailoverReason e = r) := by
  have key : ∀ r2 : FailoverReason, classifyByStatus s = some r2 →
      classifyFailoverReason e = r2 := by
    intro r2 hr2
    unfold classifyFailoverReason
    rw [hs]
    simp [hr2]
  refine ⟨?_, ?_, ?_, ?_, ?_, ?_, key r⟩
  · rintro (rfl | rfl) <;> exact key _ (by decide)
  · rintro rfl; exact key _ (by decide)
  · rintro rfl; exact key _ (by decide)
  · rintro rfl; exact key _ (by decide)
  · rintro rfl; exact key _ (by decide)
  · intro hmem
    refine key _ ?_
    fin_cases hmem <;> decide

/-- C5 amended, witnessed at the spec's own priority example: status 401
with message "timeout" classifies as auth. -/
theorem c5_amended_status_classification_witness :
    classifyFailoverReason
      { status := some 401, isErrorInstance := true, message := "timeout" } = .auth :=
  (c5_amended_status_classification
    { status := some 401, isErrorInstance := true, message := "timeout" }
    401 .auth rfl).1 (Or.inl rfl)

/-! ## C6 — tool-result bounding -/

/-- C6 counterexample: both bounding steps append a marker AFTER the
cap-length prefix, so their output exceeds the configured cap whenever
truncation fires.  With cap 5 and a 7-character text, the invoker's bound
yields a 17-character string and the guard's a 25-character part. -/
theorem c6_counterexample :
    (truncateToolResult "aaaaaaa" 5).data.length = 17
  ∧ ¬ ((truncateToolResult "aaaaaaa" 5).data.length ≤ 5)
  ∧ truncateOversizedToolResults
      [Message.toolResult "t1" "bash" [ContentPart.text "aaaaaaa"] false 0] 5
      = [Message.toolResult "t1" "bash"
          [ContentPart.text "aaaaa\n[truncated 2 chars]"] false 0]
  ∧ ¬ (("aaaaa\n[truncated 2 chars]" : String).data.length ≤ 5) :=
  ⟨by decide, by decide, rfl, by decide⟩

/-- C6 amended: after bounding, the retained original text never exceeds
the cap; the whole string exceeds it only by the marker.  The invoker's
output length is at most `cap + 12` (`"\n[truncated]"`); every text part
of a tool-result produced by the overflow guard is either an unchanged
part of length at most the cap, or the cap-length prefix of the original
followed by `"\n[truncated N chars]"`, of length exactly
`cap + 19 + digits(N)`. -/
theorem c6_amended_bounding :
    (∀ (text : String) (cap : Nat), (truncateToolResult text cap).data.length ≤ cap + 12)
  ∧ (∀ (cap : Nat) (msgs : List Message) (id name : String)
      (content : List ContentPart) (e : Bool) (ts : Int),
      Message.toolResult id name content e ts ∈ truncateOversizedToolResults msgs cap →
      ∀ s : String, ContentPart.text s ∈ content →
        ∃ s0 : String,
          (s = s0 ∧ s0.data.length ≤ cap)
          ∨ (cap < s0.data.length
             ∧ s = String.mk (s0.data.take cap) ++ "\n[truncated "
                 ++ toString (s0.data.length - cap) ++ " chars]"
             ∧ s.data.length = cap + 19 + (toString (s0.data.length - cap)).data.length)) := by
  constructor
  · intro text cap
    unfold truncateToolResult
    split
    · omega
    · rename_i h
      have hd : (String.mk (text.data.take cap) ++ "\n[truncated]").data
          = text.data.take cap ++ ("\n[truncated]" : String).data := rfl
      rw [hd]
      simp only [List.length_append, List.length_take]
      simp
      try omega
  · intro cap msgs id name content e ts hmem s hs
    simp only [truncateOversizedToolResults, List.mem_map] at hmem
    obtain ⟨m0, hm0, heq⟩ := hmem
    cases m0 with
    | user c t => simp at heq
    | assistant a => simp at heq
    | toolResult id0 name0 c0 e0 ts0 =>
      simp only at heq
      injection heq with h1 h2 h3 h4 h5
      subst h1; subst h2; subst h4; subst h5; subst h3
      obtain ⟨p0, hp0, hpe⟩ := List.mem_map.1 hs
      cases p0 with
      | text s0 =>
        by_cases hlen : s0.data.length ≤ cap
        · have hid : truncatePart cap (.text s0) = .text s0 := by
            simp only [truncatePart]
            rw [if_pos hlen]
          rw [hid] at hpe
          exact ⟨s0, Or.inl ⟨(ContentPart.text.inj hpe).symm, hlen⟩⟩
        · have htr : truncatePart cap (.text s0)
              = .text (String.mk (s0.data.take cap) ++ "\n[truncated "
                  ++ toString (s0.data.length - cap) ++ " chars]") := by
            simp only [truncatePart]
            rw [if_neg hlen]
          rw [htr] at hpe
          have hseq := (ContentPart.text.inj hpe).symm
          refine ⟨s0, Or.inr ⟨by omega, hseq, ?_⟩⟩
          rw [hseq]
          have hd : (String.mk (s0.data.take cap) ++ "\n[truncated "
              ++ toString (s0.data.length - cap) ++ " chars]").data
              = ((s0.data.take cap ++ ("\n[truncated " : String).data)
                  ++ (toString (s0.data.length - cap)).data)
                  ++ (" chars]" : String).data := rfl
          rw [hd]
          simp only [List.length_append, List.length_take]
          simp
          have hL : s0.data.length = s0.length := rfl
          omega
      | thinking s0 => simp [truncatePart] at hpe
      | toolCall tc0 => simp [truncatePart] at hpe

/-- C6 amended, witnessed at the guard's output for a 7-character part
with cap 5. -/
theorem c6_amended_bounding_witness :
    ∃ s0 : String,
      (("aaaaa\n[truncated 2 chars]" : String) = s0 ∧ s0.data.length ≤ 5)
      ∨ (5 < s0.data.length
         ∧ ("aaaaa\n[truncated 2 chars]" : String)
             = String.mk (s0.data.take 5) ++ "\n[truncated "
                 ++ toString (s0.data.length - 5) ++ " chars]"
         ∧ ("aaaaa\n[truncated 2 chars]" : String).data.length
             = 5 + 19 + (toString (s0.data.length - 5)).data.length) :=
  c6_amended_bounding.2 5
    [Message.toolResult "t1" "bash" [ContentPart.text "aaaaaaa"] false 0]
    "t1" "bash" [ContentPart.text "aaaaa\n[truncated 2 chars]"] false 0
    (List.Mem.head _)
    "aaaaa\n[truncated 2 chars]" (List.Mem.head _)

/-! ## C7 — session-key build/parse (supporting lemmas) -/

theorem eatLit_append : ∀ l xs : List Char, eatLit l (l ++ xs) = some xs
  | [], _ => rfl
  | c :: cs, xs => by
    simp only [List.cons_append, eatLit, if_pos rfl]
    exact eatLit_append cs xs

theorem takeSeg_append : ∀ (s rest : List Char), ':' ∉ s →
    takeSeg (s ++ ':' :: rest) = some (s, rest) := by
  intro s
  induction s with
  | nil => intro rest _; simp [takeSeg]
  | cons c cs ih =>
    intro rest h
    have hc : ¬ c = ':' := fun hh => h (hh ▸ List.mem_cons_self c cs)
    simp only [List.cons_append, takeSeg, if_neg hc]
    rw [List.append_eq, ih rest fun hm => h (List.mem_cons_of_mem c hm)]
    rfl

theorem segUpToColon_append (s rest : List Char) (hne : s ≠ []) (h : ':' ∉ s) :
    segUpToColon (s ++ ':' :: rest) = some (s, rest) := by
  unfold segUpToColon
  rw [takeSeg_append s rest h]
  simp [hne]

theorem isSafeChar_not_ws (c : Char) (h : isSafeChar c = true) : jsIsWs c = false := by
  simp only [isSafeChar, Bool.or_eq_true, Bool.and_eq_true, decide_eq_true_eq] at h
  simp only [jsIsWs, Bool.or_eq_false_iff, decide_eq_false_iff_not]
  omega

theorem isSafeChar_toLower_id (c : Char) (h : isSafeChar c = true) : jsToLower c = c := by
  simp only [isSafeChar, Bool.or_eq_true, Bool.and_eq_true, decide_eq_true_eq] at h
  unfold jsToLower
  rw [if_neg]
  omega

theorem isSafeChar_ci (c : Char) (h : isSafeChar c = true) : isSafeCharCI c = true := by
  simp [isSafeCharCI, h]

theorem dropWhile_ws_id (l : List Char) (h : ∀ c ∈ l, jsIsWs c = false) :
    l.dropWhile jsIsWs = l := by
  cases l with
  | nil => rfl
  | cons x xs =>
    simp [List.dropWhile, h x (List.mem_cons_self x xs)]

theorem trimChars_id (l : List Char) (h : ∀ c ∈ l, jsIsWs c = false) :
    trimChars l = l := by
  unfold trimChars
  rw [dropWhile_ws_id l h]
  rw [dropWhile_ws_id l.reverse fun c hc => h c (List.mem_reverse.1 hc)]
  exact List.reverse_reverse l

theorem collapseWsAux_id (b : Bool) : ∀ l : List Char,
    (∀ c ∈ l, jsIsWs c = false) → collapseWsAux b l = l := by
  intro l
  induction l generalizing b with
  | nil => intro _; rfl
  | cons x xs ih =>
    intro h
    simp only [collapseWsAux, h x (List.mem_cons_self x xs)]
    simp only [Bool.false_eq_true, if_false]
    rw [ih false fun c hc => h c (List.mem_cons_of_mem x hc)]

theorem map_toLower_id : ∀ l : List Char, (∀ c ∈ l, isSafeChar c = true) →
    l.map jsToLower = l := by
  intro l
  induction l with
  | nil => intro _; rfl
  | cons x xs ih =>
    intro h
    simp only [List.map_cons]
    rw [isSafeChar_toLower_id x (h x (List.mem_cons_self x xs))]
    rw [ih fun c hc => h c (List.mem_cons_of_mem x hc)]

theorem collapseWsAux_chars (b : Bool) : ∀ (l : List Char) (c : Char),
    c ∈ collapseWsAux b l → c = '_' ∨ c ∈ l := by
  intro l
  induction l generalizing b with
  | nil => intro c hc; cases hc
  | cons x xs ih =>
    intro c hc
    simp only [collapseWsAux] at hc
    by_cases hx : jsIsWs x = true
    · rw [if_pos hx] at hc
      by_cases hb : b = true
      · rw [if_pos hb] at hc
        rcases ih true c hc with h1 | h2
        · exact Or.inl h1
        · exact Or.inr (List.mem_cons_of_mem x h2)
      · rw [if_neg hb] at hc
        rcases List.mem_cons.1 hc with h1 | h2
        · exact Or.inl h1
        · rcases ih true c h2 with h3 | h4
          · exact Or.inl h3
          · exact Or.inr (List.mem_cons_of_mem x h4)
    · rw [if_neg hx] at hc
      rcases List.mem_cons.1 hc with h1 | h2
      · exact Or.inr (h1 ▸ List.mem_cons_self x xs)
      · rcases ih false c h2 with h3 | h4
        · exact Or.inl h3
        · exact Or.inr (List.mem_cons_of_mem x h4)

theorem jsToLower_not_upper (d : Char) :
    ¬ (65 ≤ (jsToLower d).toNat ∧ (jsToLower d).toNat ≤ 90) := by
  unfold jsToLower
  by_cases h : 65 ≤ d.toNat ∧ d.toNat ≤ 90
  · rw [if_pos h]
    have hv : (d.toNat + 32).isValidChar := by
      left; omega
    rw [Char.ofNat, dif_pos hv]
    have : (Char.ofNatAux (d.toNat + 32) hv).toNat = d.toNat + 32 := rfl
    rw [this]
    omega
  · rw [if_neg h]
    exact h

theorem ci_not_upper_safe (c : Char) (hci : isSafeCharCI c = true)
    (hup : ¬ (65 ≤ c.toNat ∧ c.toNat ≤ 90)) : isSafeChar c = true := by
  simp only [isSafeCharCI, Bool.or_eq_true, Bool.and_eq_true, decide_eq_true_eq] at hci
  rcases hci with h | h
  · exact h
  · exact absurd h hup

theorem take_ne_nil_of_ne_nil (l : List Char) (h : l ≠ []) :
    l.take MAX_SEGMENT_LEN ≠ [] := by
  cases l with
  | nil => exact absurd rfl h
  | cons x xs => simp [MAX_SEGMENT_LEN, List.take]

/-- Every normalised segment is well formed (nonempty, clamped, strip
class only), provided the fallback is. -/
theorem segGood_normalizeSegment (raw fb : String) (hfb : SegGood fb) :
    SegGood (normalizeSegment raw fb) := by
  obtain ⟨hfb1, hfb2, hfb3⟩ := hfb
  unfold normalizeSegment
  by_cases h1 : trimChars raw.data = []
  · rw [if_pos h1]
    exact ⟨hfb1, hfb2, hfb3⟩
  · rw [if_neg h1]
    set lower := collapseWs ((trimChars raw.data).map jsToLower) with hlowdef
    have hlowChars : ∀ c ∈ lower, ¬ (65 ≤ c.toNat ∧ c.toNat ≤ 90) := by
      intro c hc
      rcases collapseWsAux_chars false _ c hc with h2 | h2
      · subst h2
        intro hcon
        have h95 : ('_' : Char).toNat = 95 := rfl
        omega
      · obtain ⟨d, _, hd2⟩ := List.mem_map.1 h2
        rw [← hd2]
        exact jsToLower_not_upper d
    by_cases h2 : lower ≠ [] ∧ lower.all isSafeCharCI = true
    · rw [if_pos (by simpa using h2)]
      obtain ⟨h2a, h2b⟩ := h2
      refine ⟨?_, ?_, ?_⟩
      · exact take_ne_nil_of_ne_nil lower h2a
      · simpa [MAX_SEGMENT_LEN] using List.length_take_le 128 lower
      · intro c hc
        have hmem : c ∈ lower := List.take_subset _ _ hc
        exact ci_not_upper_safe c (List.all_eq_true.1 h2b c hmem) (hlowChars c hmem)
    · rw [if_neg (by simpa using h2)]
      by_cases h3 : lower.filter isSafeChar = []
      · rw [if_pos h3]
        refine ⟨?_, ?_, ?_⟩
        · exact take_ne_nil_of_ne_nil fb.data hfb1
        · simpa [MAX_SEGMENT_LEN] using List.length_take_le 128 fb.data
        · intro c hc
          exact hfb3 c (List.take_subset _ _ hc)
      · rw [if_neg h3]
        refine ⟨?_, ?_, ?_⟩
        · exact take_ne_nil_of_ne_nil _ h3
        · simpa [MAX_SEGMENT_LEN] using List.length_take_le 128 (lower.filter isSafeChar)
        · intro c hc
          exact List.of_mem_filter (List.take_subset _ _ hc)

/-- Normalising an already well-formed segment is the identity. -/
theorem normalizeSegment_idem (s fb : String) (hs : SegGood s) :
    normalizeSegment s fb = s := by
  obtain ⟨h1, h2, h3⟩ := hs
  unfold normalizeSegment
  have hnws : ∀ c ∈ s.data, jsIsWs c = false :=
    fun c hc => isSafeChar_not_ws c (h3 c hc)
  rw [trimChars_id s.data hnws, if_neg h1, map_toLower_id s.data h3]
  rw [show collapseWs s.data = s.data from collapseWsAux_id false s.data hnws]
  have hcond : (decide (s.data ≠ []) && s.data.all isSafeCharCI) = true := by
    simp only [Bool.and_eq_true, decide_eq_true_eq, ne_eq]
    exact ⟨h1, List.all_eq_true.2 fun c hc => isSafeChar_ci c (h3 c hc)⟩
  rw [if_pos hcond]
  rw [List.take_of_length_le (by simpa [MAX_SEGMENT_LEN] using h2)]

/-- C7 counterexample: the claim demands `parse ∘ build` succeed for
every parameter set, but a channel whose normalised form retains a colon
(`:` is in the safe class) breaks the parse: the `([^:]+)` group for the
channel cannot span the colon, so `parseSessionKey` returns the failure
signal `none`. -/
theorem c7_counterexample :
    buildSessionKey { channel := "a:b", peerKind := .direct, peerId := "x" }
      = "agent:main:channel:a:b:account:default:peer:direct:x"
  ∧ parseSessionKey
      (buildSessionKey { channel := "a:b", peerKind := .direct, peerId := "x" })
      = none := by
  constructor
  · rfl
  · rfl

/-- C7 amended: provided the normalised agent, channel and account
segments are colon-free (the peer id may contain colons), parsing a
built key succeeds and returns exactly the five normalised segments;
and rebuilding a key from those parsed segments yields the same string
(build is idempotent). -/
theorem c7_amended_parse_build (p : SessionKeyParams)
    (ha : ':' ∉ (normalizeSegment (p.agentId.getD "main") "main").data)
    (hc : ':' ∉ (normalizeSegment p.channel "unknown").data)
    (hac : ':' ∉ (normalizeSegment (p.accountId.getD "default") "default").data) :
    parseSessionKey (buildSessionKey p)
      = some
          { agentId := normalizeSegment (p.agentId.getD "main") "main"
            channel := normalizeSegment p.channel "unknown"
            accountId := normalizeSegment (p.accountId.getD "default") "default"
            peerKind := p.peerKind
            peerId := normalizeSegment p.peerId "unknown" }
  ∧ buildSessionKey
      { agentId := some (normalizeSegment (p.agentId.getD "main") "main")
        channel := normalizeSegment p.channel "unknown"
        accountId := some (normalizeSegment (p.accountId.getD "default") "default")
        peerKind := p.peerKind
        peerId := normalizeSegment p.peerId "unknown" }
      = buildSessionKey p := by
  set a := normalizeSegment (p.agentId.getD "main") "main" with hadef
  set c := normalizeSegment p.channel "unknown" with hcdef
  set ac := normalizeSegment (p.accountId.getD "default") "default" with hacdef
  set pid := normalizeSegment p.peerId "unknown" with hpiddef
  have hga : SegGood a :=
    segGood_normalizeSegment _ "main" ⟨by decide, by decide, by decide⟩
  have hgc : SegGood c :=
    segGood_normalizeSegment _ "unknown" ⟨by decide, by decide, by decide⟩
  have hgac : SegGood ac :=
    segGood_normalizeSegment _ "default" ⟨by decide, by decide, by decide⟩
  have hgpid : SegGood pid :=
    segGood_normalizeSegment _ "unknown" ⟨by decide, by decide, by decide⟩
  constructor
  · have hb : buildSessionKey p
        = "agent:" ++ a ++ ":channel:" ++ c ++ ":account:" ++ ac ++ ":peer:"
            ++ p.peerKind.toStr ++ ":" ++ pid := rfl
    have h9 : (buildSessionKey p).data
        = "agent:".data ++ (a.data ++ ((":channel:" : String).data ++ (c.data
            ++ ((":account:" : String).data ++ (ac.data ++ ((":peer:" : String).data
            ++ (p.peerKind.toStr.data ++ ((":" : String).data ++ pid.data)))))))) := by
      rw [hb]
      simp only [strData_append, List.append_assoc]
    have hch : ∀ Z : List Char,
        (":channel:" : String).data ++ Z = ':' :: ("channel:".data ++ Z) :=
      fun _ => rfl
    have hacct : ∀ Z : List Char,
        (":account:" : String).data ++ Z = ':' :: ("account:".data ++ Z) :=
      fun _ => rfl
    have hpe : ∀ Z : List Char,
        (":peer:" : String).data ++ Z = ':' :: ("peer:".data ++ Z) :=
      fun _ => rfl
    have hcol : ∀ Z : List Char, (":" : String).data ++ Z = ':' :: Z :=
      fun _ => rfl
    rw [hch, hacct, hpe, hcol] at h9
    unfold parseSessionKey
    rw [h9, eatLit_append]
    simp only [Option.bind_eq_bind, Option.some_bind]
    rw [segUpToColon_append a.data _ hga.1 ha]
    simp only [Option.some_bind]
    rw [eatLit_append]
    simp only [Option.some_bind]
    rw [segUpToColon_append c.data _ hgc.1 hc]
    simp only [Option.some_bind]
    rw [eatLit_append]
    simp only [Option.some_bind]
    rw [segUpToColon_append ac.data _ hgac.1 hac]
    simp only [Option.some_bind]
    rw [eatLit_append]
    simp only [Option.some_bind]
    have hpidne : ¬ pid.data = [] := hgpid.1
    cases hpk : p.peerKind with
    | direct =>
      have hd1 : ∀ xs : List Char,
          eatLit "direct:".data ("direct".data ++ ':' :: xs) = some xs :=
        fun _ => rfl
      rw [PeerKind.toStr, hd1]
      simp only [Option.some_bind]
      rw [if_neg hpidne]
    | group =>
      have hd1 : ∀ xs : List Char,
          eatLit "direct:".data ("group".data ++ ':' :: xs) = none :=
        fun _ => rfl
      have hd2 : ∀ xs : List Char,
          eatLit "group:".data ("group".data ++ ':' :: xs) = some xs :=
        fun _ => rfl
      rw [PeerKind.toStr, hd1, hd2]
      simp only [Option.some_bind]
      rw [if_neg hpidne]
    | channel =>
      have hd1 : ∀ xs : List Char,
          eatLit "direct:".data ("channel".data ++ ':' :: xs) = none :=
        fun _ => rfl
      have hd2 : ∀ xs : List Char,
          eatLit "group:".data ("channel".data ++ ':' :: xs) = none :=
        fun _ => rfl
      have hd3 : ∀ xs : List Char,
          eatLit "channel:".data ("channel".data ++ ':' :: xs) = some xs :=
        fun _ => rfl
      rw [PeerKind.toStr, hd1, hd2, hd3]
      simp only [Option.some_bind]
      rw [if_neg hpidne]
  · simp only [buildSessionKey, Option.getD_some]
    rw [normalizeSegment_idem a "main" hga, normalizeSegment_idem c "unknown" hgc,
      normalizeSegment_idem ac "default" hgac, normalizeSegment_idem pid "unknown" hgpid]

/-- C7 amended, witnessed on params with an agent id needing
normalisation and a peer id containing a colon. -/
theorem c7_amended_parse_build_witness :
    parseSessionKey (buildSessionKey
      { agentId := some "Main Agent", channel := "telegram",
        peerKind := .direct, peerId := "user:42" })
      = some
          { agentId := "main_agent", channel := "telegram",
            accountId := "default", peerKind := .direct, peerId := "user:42" } :=
  ((c7_amended_parse_build
    { agentId := some "Main Agent", channel := "telegram",
      peerKind := .direct, peerId := "user:42" }
    (by decide) (by decide) (by decide)).1).trans (by rfl)

/-! ## C1 — orphaned-tool-call repair (supporting lemmas) -/

theorem answeredIds_repair : ∀ L : List Message,
    answeredIds (repairOrphanedToolCalls L) = answeredIds L := by
  intro L
  induction L with
  | nil => rfl
  | cons m rest ih =>
    cases m with
    | user c t => simp only [repairOrphanedToolCalls, answeredIds]; exact ih
    | assistant a => simp only [repairOrphanedToolCalls, answeredIds]
    | toolResult id name content e ts =>
      simp only [repairOrphanedToolCalls, answeredIds]
      rw [ih]

theorem answeredIds_synthBlock (ts : Int) : ∀ (tcs : List ToolCallPart) (X : List Message),
    answeredIds ((tcs.map fun tc => syntheticToolResult tc ts) ++ X)
      = tcs.map (fun tc => tc.id) ++ answeredIds X := by
  intro tcs
  induction tcs with
  | nil => intro X; rfl
  | cons tc rest ih =>
    intro X
    have h1 : answeredIds ((List.map (fun tc2 => syntheticToolResult tc2 ts) (tc :: rest)) ++ X)
        = tc.id :: answeredIds ((List.map (fun tc2 => syntheticToolResult tc2 ts) rest) ++ X) :=
      rfl
    rw [h1, ih]
    rfl

theorem answeredIds_append_assistant (a : AssistantMsg) (Y : List Message) :
    ∀ X : List Message, answeredIds (X ++ Message.assistant a :: Y) = answeredIds X := by
  intro X
  induction X with
  | nil => rfl
  | cons m rest ih =>
    cases m with
    | user c t => simp only [List.cons_append, answeredIds, List.append_eq]; exact ih
    | assistant b => simp only [List.cons_append, answeredIds]
    | toolResult id name content e ts =>
      simp only [List.cons_append, answeredIds, List.append_eq]
      rw [ih]

theorem repair_sublist : ∀ L : List Message, L.Sublist (repairOrphanedToolCalls L) := by
  intro L
  induction L with
  | nil => exact List.Sublist.refl []
  | cons m rest ih =>
    cases m with
    | user c t => exact List.Sublist.cons₂ _ ih
    | toolResult id name content e ts => exact List.Sublist.cons₂ _ ih
    | assistant a =>
      simp only [repairOrphanedToolCalls]
      exact List.Sublist.cons₂ _
        (ih.trans (List.sublist_append_right _ _))

theorem repair_append_assistant (a : AssistantMsg) : ∀ L1 L2 : List Message,
    repairOrphanedToolCalls (L1 ++ Message.assistant a :: L2)
      = repairOrphanedToolCalls L1
        ++ (Message.assistant a ::
          ((orphanedToolCalls a L2).map (syntheticToolResult · a.timestamp)
            ++ repairOrphanedToolCalls L2)) := by
  intro L1
  induction L1 with
  | nil => intro L2; rfl
  | cons m rest ih =>
    intro L2
    cases m with
    | user c t =>
      simp only [List.cons_append, repairOrphanedToolCalls, List.append_eq]
      rw [ih]
    | toolResult id name content e ts =>
      simp only [List.cons_append, repairOrphanedToolCalls, List.append_eq]
      rw [ih]
    | assistant b =>
      simp only [List.cons_append, repairOrphanedToolCalls, List.append_eq]
      have horph : orphanedToolCalls b (rest ++ Message.assistant a :: L2)
          = orphanedToolCalls b rest := by
        unfold orphanedToolCalls
        rw [answeredIds_append_assistant a L2 rest]
      rw [horph, ih]
      simp [List.append_assoc]

theorem repair_synthBlock (ts : Int) : ∀ (tcs : List ToolCallPart) (X : List Message),
    repairOrphanedToolCalls ((tcs.map fun tc => syntheticToolResult tc ts) ++ X)
      = (tcs.map fun tc => syntheticToolResult tc ts) ++ repairOrphanedToolCalls X := by
  intro tcs
  induction tcs with
  | nil => intro X; rfl
  | cons tc rest ih =>
    intro X
    have h1 : repairOrphanedToolCalls
          ((List.map (fun tc2 => syntheticToolResult tc2 ts) (tc :: rest)) ++ X)
        = syntheticToolResult tc ts
            :: repairOrphanedToolCalls
              ((List.map (fun tc2 => syntheticToolResult tc2 ts) rest) ++ X) :=
      rfl
    rw [h1, ih]
    rfl

theorem contains_append (x : String) : ∀ l1 l2 : List String,
    (l1 ++ l2).contains x = (l1.contains x || l2.contains x) := by
  intro l1 l2
  induction l1 with
  | nil => rfl
  | cons y rest ih =>
    simp only [List.cons_append, List.contains_cons, ih, Bool.or_assoc]

theorem contains_iff_mem (x : String) : ∀ l : List String,
    l.contains x = true ↔ x ∈ l := by
  intro l
  induction l with
  | nil => simp [List.contains]
  | cons y rest ih => simp [List.contains_cons, ih]

theorem orphans_nil (a : AssistantMsg) (rest : List Message) :
    orphanedToolCalls a
      ((orphanedToolCalls a rest).map (syntheticToolResult · a.timestamp)
        ++ repairOrphanedToolCalls rest) = [] := by
  rw [show orphanedToolCalls a
      ((orphanedToolCalls a rest).map (syntheticToolResult · a.timestamp)
        ++ repairOrphanedToolCalls rest)
      = (extractToolCalls a).filter fun tc =>
          !(answeredIds ((orphanedToolCalls a rest).map (syntheticToolResult · a.timestamp)
            ++ repairOrphanedToolCalls rest)).contains tc.id from rfl]
  rw [answeredIds_synthBlock a.timestamp (orphanedToolCalls a rest)
    (repairOrphanedToolCalls rest)]
  rw [answeredIds_repair rest]
  apply List.filter_eq_nil_iff.mpr
  intro tc htc
  have hcontains : ((orphanedToolCalls a rest).map (fun tc2 => tc2.id)
      ++ answeredIds rest).contains tc.id = true := by
    rw [contains_append]
    by_cases hq : tc.id ∈ answeredIds rest
    · rw [(contains_iff_mem tc.id (answeredIds rest)).mpr hq]
      simp
    · have hmem : tc ∈ orphanedToolCalls a rest := by
        unfold orphanedToolCalls
        refine List.mem_filter.mpr ⟨htc, ?_⟩
        have : (answeredIds rest).contains tc.id = false := by
          cases hcc : (answeredIds rest).contains tc.id
          · rfl
          · exact absurd ((contains_iff_mem tc.id (answeredIds rest)).mp hcc) hq
        rw [this]
        rfl
      have hid : tc.id ∈ (orphanedToolCalls a rest).map (fun tc2 => tc2.id) :=
        List.mem_map.mpr ⟨tc, hmem, rfl⟩
      rw [(contains_iff_mem tc.id _).mpr hid]
      simp
  rw [hcontains]
  decide

theorem repair_idem : ∀ L : List Message,
    repairOrphanedToolCalls (repairOrphanedToolCalls L) = repairOrphanedToolCalls L := by
  intro L
  induction L with
  | nil => rfl
  | cons m rest ih =>
    cases m with
    | user c t =>
      simp only [repairOrphanedToolCalls]
      rw [ih]
    | toolResult id name content e ts =>
      simp only [repairOrphanedToolCalls]
      rw [ih]
    | assistant a =>
      simp only [repairOrphanedToolCalls]
      rw [orphans_nil a rest]
      simp only [List.map_nil, List.nil_append]
      rw [repair_synthBlock a.timestamp (orphanedToolCalls a rest)
        (repairOrphanedToolCalls rest)]
      rw [ih]

theorem repair_mem : ∀ (L : List Message) (m : Message),
    m ∈ repairOrphanedToolCalls L →
    m ∈ L ∨ ∃ (b : AssistantMsg) (tc : ToolCallPart),
      Message.assistant b ∈ L ∧ tc ∈ extractToolCalls b
        ∧ m = syntheticToolResult tc b.timestamp := by
  intro L
  induction L with
  | nil => intro m hm; cases hm
  | cons head rest ih =>
    intro m hm
    cases head with
    | user c t =>
      rcases List.mem_cons.1 hm with h1 | h2
      · exact Or.inl (h1 ▸ List.mem_cons_self _ _)
      · rcases ih m h2 with h3 | ⟨b, tc, hb, htc, heq⟩
        · exact Or.inl (List.mem_cons_of_mem _ h3)
        · exact Or.inr ⟨b, tc, List.mem_cons_of_mem _ hb, htc, heq⟩
    | toolResult id name content e ts =>
      rcases List.mem_cons.1 hm with h1 | h2
      · exact Or.inl (h1 ▸ List.mem_cons_self _ _)
      · rcases ih m h2 with h3 | ⟨b, tc, hb, htc, heq⟩
        · exact Or.inl (List.mem_cons_of_mem _ h3)
        · exact Or.inr ⟨b, tc, List.mem_cons_of_mem _ hb, htc, heq⟩
    | assistant a =>
      simp only [repairOrphanedToolCalls] at hm
      rcases List.mem_cons.1 hm with h1 | h2
      · exact Or.inl (h1 ▸ List.mem_cons_self _ _)
      · rcases List.mem_append.1 h2 with h3 | h4
        · obtain ⟨tc, htc, heq⟩ := List.mem_map.1 h3
          refine Or.inr ⟨a, tc, List.mem_cons_self _ _, ?_, heq.symm⟩
          exact List.mem_of_mem_filter htc
        · rcases ih m h4 with h5 | ⟨b, tc, hb, htc, heq⟩
          · exact Or.inl (List.mem_cons_of_mem _ h5)
          · exact Or.inr ⟨b, tc, List.mem_cons_of_mem _ hb, htc, heq⟩

/-- C1: `repairOrphanedToolCalls` (i) preserves the input as a sublist of
the output; (ii) the injected synthetic result carries the orphaned
call's id and name, the single text part
`"[Tool result missing — session was interrupted]"`, error flag true and
the assistant's timestamp; (iii) after any assistant message the output
contains, immediately after it, exactly the synthetic results of its
tool calls not answered before the next assistant message; (iv) every
output message is an input message or such a synthetic result; and (v)
the repair is idempotent. -/
theorem c1_repairOrphanedToolCalls
    (L L1 L2 : List Message) (a : AssistantMsg) :
    L.Sublist (repairOrphanedToolCalls L)
  ∧ (∀ (tc : ToolCallPart) (ts : Int), syntheticToolResult tc ts
      = Message.toolResult tc.id tc.name
          [ContentPart.text "[Tool result missing — session was interrupted]"] true ts)
  ∧ repairOrphanedToolCalls (L1 ++ Message.assistant a :: L2)
      = repairOrphanedToolCalls L1
        ++ (Message.assistant a ::
          ((orphanedToolCalls a L2).map (syntheticToolResult · a.timestamp)
            ++ repairOrphanedToolCalls L2))
  ∧ (∀ m ∈ repairOrphanedToolCalls L,
      m ∈ L ∨ ∃ (b : AssistantMsg) (tc : ToolCallPart),
        Message.assistant b ∈ L ∧ tc ∈ extractToolCalls b
          ∧ m = syntheticToolResult tc b.timestamp)
  ∧ repairOrphanedToolCalls (repairOrphanedToolCalls L) = repairOrphanedToolCalls L :=
  ⟨repair_sublist L, fun _ _ => rfl, repair_append_assistant a L1 L2,
    repair_mem L, repair_idem L⟩

/-- C1, witnessed on the spec's orphan-repair scenario: user "go",
assistant with an unanswered tool call `tc1`, then another assistant;
the repaired list injects the synthetic error result right after the
first assistant, and that injected message is accounted for by the
characterisation. -/
theorem c1_repairOrphanedToolCalls_witness :
    repairOrphanedToolCalls
      [ Message.user (.str "go") 1
      , Message.assistant { content := [.toolCall ⟨"tc1", "apply_patch", .obj []⟩], timestamp := 2 }
      , Message.assistant { content := [.text "next turn"], timestamp := 3 } ]
    = [ Message.user (.str "go") 1
      , Message.assistant { content := [.toolCall ⟨"tc1", "apply_patch", .obj []⟩], timestamp := 2 }
      , Message.toolResult "tc1" "apply_patch"
          [.text "[Tool result missing — session was interrupted]"] true 2
      , Message.assistant { content := [.text "next turn"], timestamp := 3 } ]
  ∧ (Message.toolResult "tc1" "apply_patch"
        [.text "[Tool result missing — session was interrupted]"] true 2
      ∈ [ Message.user (.str "go") 1
        , Message.assistant { content := [.toolCall ⟨"tc1", "apply_patch", .obj []⟩], timestamp := 2 }
        , Message.assistant { content := [.text "next turn"], timestamp := 3 } ]
    ∨ ∃ (b : AssistantMsg) (tc : ToolCallPart),
        Message.assistant b
          ∈ [ Message.user (.str "go") 1
            , Message.assistant { content := [.toolCall ⟨"tc1", "apply_patch", .obj []⟩], timestamp := 2 }
            , Message.assistant { content := [.text "next turn"], timestamp := 3 } ]
        ∧ tc ∈ extractToolCalls b
        ∧ Message.toolResult "tc1" "apply_patch"
            [.text "[Tool result missing — session was interrupted]"] true 2
          = syntheticToolResult tc b.timestamp) :=
  ⟨rfl,
    (c1_repairOrphanedToolCalls
      [ Message.user (.str "go") 1
      , Message.assistant { content := [.toolCall ⟨"tc1", "apply_patch", .obj []⟩], timestamp := 2 }
      , Message.assistant { content := [.text "next turn"], timestamp := 3 } ]
      [] [] { content := [] }).2.2.2.1 _
      (List.Mem.tail _ (List.Mem.tail _ (List.Mem.head _)))⟩

/-! ## C8 — transcript round trip -/

theorem roundtrip_cons (m : Message) (rest : List Message) :
    transcriptToMessages (messagesToTranscript (m :: rest))
      = rtMsg m :: transcriptToMessages (messagesToTranscript rest) := by
  cases m <;> rfl

theorem roundtrip_map : ∀ L : List Message,
    transcriptToMessages (messagesToTranscript L) = L.map rtMsg := by
  intro L
  induction L with
  | nil => rfl
  | cons m rest ih =>
    rw [roundtrip_cons, ih]
    rfl

theorem preserved_rtMsg : ∀ m : Message, PreservedFields m (rtMsg m) := by
  intro m
  cases m with
  | user c ts =>
    refine ⟨?_, ?_, ?_⟩
    · intro c2 ts2 he
      injection he with h1 h2
      subst h2
      exact ⟨_, rfl⟩
    · intro a he
      simp at he
    · intro id name content isError ts2 he
      simp at he
  | assistant a =>
    refine ⟨?_, ?_, ?_⟩
    · intro c2 ts2 he
      simp at he
    · intro a2 he
      injection he with h1
      subst h1
      rfl
    · intro id name content isError ts2 he
      simp at he
  | toolResult id name content isError ts =>
    refine ⟨?_, ?_, ?_⟩
    · intro c2 ts2 he
      simp at he
    · intro a2 he
      simp at he
    · intro id2 name2 content2 isError2 ts2 he
      injection he with h1 h2 h3 h4 h5
      subst h1; subst h2; subst h4; subst h5
      exact ⟨_, rfl⟩

/-- C8: one round trip through `messagesToTranscript` then
`transcriptToMessages` preserves the list length and, position by
position, the role, the timestamp, the entire assistant message
(including its content-block sequence and hence all tool-call
identifiers, names and arguments), and each tool-result's tool-call id,
tool name and error flag. -/
theorem c8_roundtrip_preserves (L : List Message) :
    (transcriptToMessages (messagesToTranscript L)).length = L.length
  ∧ ∀ (i : Nat) (h : i < L.length)
      (h2 : i < (transcriptToMessages (messagesToTranscript L)).length),
      PreservedFields (L.get ⟨i, h⟩)
        ((transcriptToMessages (messagesToTranscript L)).get ⟨i, h2⟩) := by
  have hmap := roundtrip_map L
  constructor
  · rw [hmap, List.length_map]
  · intro i h h2
    have hget : (transcriptToMessages (messagesToTranscript L)).get ⟨i, h2⟩
        = rtMsg (L.get ⟨i, h⟩) := by
      have h3 := List.get_of_eq hmap ⟨i, h2⟩
      rw [h3]
      exact List.get_map rtMsg
    rw [hget]
    exact preserved_rtMsg (L.get ⟨i, h⟩)

/-- C8, witnessed at a one-element list (the round-tripped element
computes to the original user message). -/
theorem c8_roundtrip_preserves_witness :
    PreservedFields (Message.user (.str "Hi") 7) (Message.user (.str "Hi") 7) :=
  (c8_roundtrip_preserves [Message.user (.str "Hi") 7]).2 0 (by decide) (by decide)

/-! ## C9 — transcript load and count -/

/-- C9 counterexample: `countMessages` checks only that `role` is a
string, while `loadTranscript` additionally requires a string `content`.
A parseable line with `role: "user"` but numeric `content` — a malformed
message line — is counted but not loaded, so for this file (header plus
that one line) `count = 1` while `load` returns 0 messages. -/
theorem c9_counterexample :
    countMessages
      [ RawLine.parsed (.obj [("type", .str "session"), ("sessionKey", .str "k"),
          ("createdAt", .num 0)])
      , RawLine.parsed (.obj [("role", .str "user"), ("content", .num 5)]) ] = 1
  ∧ loadTranscriptLines
      [ RawLine.parsed (.obj [("type", .str "session"), ("sessionKey", .str "k"),
          ("createdAt", .num 0)])
      , RawLine.parsed (.obj [("role", .str "user"), ("content", .num 5)]) ] = []
  ∧ countMessages
      [ RawLine.parsed (.obj [("type", .str "session"), ("sessionKey", .str "k"),
          ("createdAt", .num 0)])
      , RawLine.parsed (.obj [("role", .str "user"), ("content", .num 5)]) ]
    ≠ (loadTranscriptLines
      [ RawLine.parsed (.obj [("type", .str "session"), ("sessionKey", .str "k"),
          ("createdAt", .num 0)])
      , RawLine.parsed (.obj [("role", .str "user"), ("content", .num 5)]) ]).length :=
  ⟨by decide, rfl, by decide⟩

theorem countLine_of_loadLine (l : RawLine) (h : (loadLine l).isSome = true) :
    countLine l = true := by
  cases l with
  | blank => simp [loadLine] at h
  | malformed => simp [loadLine] at h
  | parsed j =>
    simp only [loadLine] at h
    simp only [countLine]
    by_cases hh : isHeaderLine j
    · rw [if_pos hh] at h
      simp at h
    · rw [if_neg hh] at h
      rw [if_neg hh]
      cases hr : strField j "role" with
      | none => rw [hr] at h; simp at h
      | some r => simp [hr]

theorem loadLine_none_of_countLine (l : RawLine) (h : countLine l = false) :
    loadLine l = none := by
  cases hl : loadLine l with
  | none => rfl
  | some m =>
    have : (loadLine l).isSome = true := by rw [hl]; rfl
    rw [countLine_of_loadLine l this] at h
    cases h

theorem c9aux_count : ∀ lines : List RawLine,
    (∀ l ∈ lines, (loadLine l).isSome = true ∨ countLine l = false) →
    countMessages lines = (loadTranscriptLines lines).length := by
  intro lines
  induction lines with
  | nil => intro _; rfl
  | cons head tail ih =>
    intro h
    have hhead := h head (List.mem_cons_self head tail)
    have htail := ih fun l hl => h l (List.mem_cons_of_mem head hl)
    rcases hhead with hsome | hfalse
    · have hc := countLine_of_loadLine head hsome
      obtain ⟨m, hm⟩ := Option.isSome_iff_exists.1 hsome
      simp only [countMessages, loadTranscriptLines, List.filter_cons, hc,
        List.filterMap_cons, hm, if_true, List.length_cons]
      simpa [countMessages, loadTranscriptLines] using htail
    · have hn := loadLine_none_of_countLine head hfalse
      simp only [countMessages, loadTranscriptLines, List.filter_cons, hfalse,
        List.filterMap_cons, hn]
      simpa [countMessages, loadTranscriptLines] using htail

theorem filterIsSome_filterMap {α β : Type} (f : α → Option β) :
    ∀ xs : List α,
      (xs.filter fun x => (f x).isSome).filterMap f = xs.filterMap f := by
  intro xs
  induction xs with
  | nil => rfl
  | cons x rest ih =>
    cases hx : f x with
    | none =>
      simp only [List.filter_cons, List.filterMap_cons, hx]
      simpa [hx] using ih
    | some b =>
      simp only [List.filter_cons, List.filterMap_cons, hx]
      simp only [Option.isSome_some, if_true, List.filterMap_cons, hx]
      rw [ih]

/-- C9 amended: for a file whose lines are each either loadable (valid
header-free message lines with string `role` and `content`) or harmless
to the counter — blank, unparseable, a header, or JSON whose `role` is
not a string — `count` equals the number of loaded messages, and `load`
returns exactly the loadable lines' records in file order.  The claim as
stated fails only for parseable malformed lines that carry a string
`role` without a string `content`, which `count` counts but `load`
skips. -/
theorem c9_amended_load_count (lines : List RawLine)
    (h : ∀ l ∈ lines, (loadLine l).isSome = true ∨ countLine l = false) :
    countMessages lines = (loadTranscriptLines lines).length
  ∧ loadTranscriptLines lines
      = (lines.filter fun l => (loadLine l).isSome).filterMap loadLine :=
  ⟨c9aux_count lines h, (filterIsSome_filterMap loadLine lines).symm⟩

/-- C9 amended, witnessed on a file with a header, two valid messages, a
blank line and a malformed line: count = 2 = loaded messages. -/
theorem c9_amended_load_count_witness :
    countMessages
      [ RawLine.parsed (.obj [("type", .str "session")])
      , RawLine.parsed (.obj [("role", .str "user"), ("content", .str "hi"),
          ("ts", .num 1)])
      , RawLine.blank
      , RawLine.malformed
      , RawLine.parsed (.obj [("role", .str "assistant"), ("content", .str "yo"),
          ("ts", .num 2)]) ]
    = (loadTranscriptLines
      [ RawLine.parsed (.obj [("type", .str "session")])
      , RawLine.parsed (.obj [("role", .str "user"), ("content", .str "hi"),
          ("ts", .num 1)])
      , RawLine.blank
      , RawLine.malformed
      , RawLine.parsed (.obj [("role", .str "assistant"), ("content", .str "yo"),
          ("ts", .num 2)]) ]).length :=
  (c9_amended_load_count _ (by decide)).1

/-! ## C2 — error paths persist nothing -/

theorem attempt_effects (env : RunEnv) (st : RunSt) (retries : Nat) :
    ((attemptLLM env st retries).2).effects = st.effects := by
  rw [attemptLLM]
  dsimp only
  split
  · rfl
  · split
    · rfl
    · split
      · exact attempt_effects env st (retries + 1)
      · split
        · rfl
        · split
          · split
            · split
              · exact attempt_effects env _ retries
              · split
                · exact attempt_effects env _ retries
                · rfl
            · split
              · exact attempt_effects env _ retries
              · rfl
          · split
            · exact attempt_effects env _ (retries + 1)
            · rfl
termination_by
  (env.maxRetries + 1 - retries,
    (if st.compactionAttempted then 0 else 1) + (if st.truncationAttempted then 0 else 1))
decreasing_by
  all_goals simp_all
  all_goals omega

theorem exec_effects (env : RunEnv) : ∀ (tcs : List ToolCallPart) (st : RunSt),
    ((execTools env tcs st).2).effects = st.effects := by
  intro tcs
  induction tcs with
  | nil => intro st; rfl
  | cons tc rest ih =>
    intro st
    rw [execTools]
    split
    · rfl
    · exact ih _

theorem iter_effects (env : RunEnv) (hl : Nat) : ∀ (rem it : Nat) (st : RunSt),
    (∀ e, (iterLoop env hl rem it st).1 = .error e →
      ((iterLoop env hl rem it st).2).effects = st.effects)
  ∧ (∀ r, (iterLoop env hl rem it st).1 = .ok r →
      ∃ msgs, ((iterLoop env hl rem it st).2).effects
        = st.effects ++ [Effect.appendTranscript msgs,
            Effect.updateMeta env.modelId r.usage.totalTokens]) := by
  intro rem
  induction rem with
  | zero =>
    intro it st
    constructor
    · intro e he
      exact Except.noConfusion he
    · intro r hr
      have hr2 := Except.ok.inj hr
      subst hr2
      exact ⟨_, rfl⟩
  | succ rem ih =>
    intro it st
    constructor
    · intro e he
      rw [iterLoop] at he ⊢
      by_cases hab : env.aborted = true
      · rw [if_pos hab] at he ⊢
      · rw [if_neg hab] at he ⊢
        have h1 := attempt_effects env st 0
        rcases hatt : attemptLLM env st 0 with ⟨res, st2⟩
        rw [hatt] at he h1
        rcases res with e2 | o
        · exact h1
        · rcases o with _ | amsg
          · exact h1
          · dsimp only at he ⊢
            by_cases hemp : (extractToolCalls amsg).isEmpty = true
            · rw [if_pos hemp] at he
              exact Except.noConfusion he
            · rw [if_neg hemp] at he ⊢
              have h2 := exec_effects env (extractToolCalls amsg)
                { st2 with messages := st2.messages ++ [Message.assistant amsg] }
              rcases hexec : execTools env (extractToolCalls amsg)
                  { st2 with messages := st2.messages ++ [Message.assistant amsg] }
                with ⟨res2, st4⟩
              rw [hexec] at he h2
              rcases res2 with e3 | u
              · exact h2.trans h1
              · have h3 := (ih (it + 1)
                  { st4 with compactionAttempted := false, truncationAttempted := false }).1 e he
                exact h3.trans (h2.trans h1)
    · intro r hr
      rw [iterLoop] at hr ⊢
      by_cases hab : env.aborted = true
      · rw [if_pos hab] at hr
        exact Except.noConfusion hr
      · rw [if_neg hab] at hr ⊢
        have h1 := attempt_effects env st 0
        rcases hatt : attemptLLM env st 0 with ⟨res, st2⟩
        rw [hatt] at hr h1
        rcases res with e2 | o
        · exact Except.noConfusion hr
        · rcases o with _ | amsg
          · exact Except.noConfusion hr
          · dsimp only at hr ⊢
            by_cases hemp : (extractToolCalls amsg).isEmpty = true
            · rw [if_pos hemp] at hr ⊢
              have hr2 := Except.ok.inj hr
              subst hr2
              have h1x : st2.effects = st.effects := h1
              dsimp only [persistEffects]
              simp only [h1x]
              exact ⟨_, rfl⟩
            · rw [if_neg hemp] at hr ⊢
              have h2 := exec_effects env (extractToolCalls amsg)
                { st2 with messages := st2.messages ++ [Message.assistant amsg] }
              rcases hexec : execTools env (extractToolCalls amsg)
                  { st2 with messages := st2.messages ++ [Message.assistant amsg] }
                with ⟨res2, st4⟩
              rw [hexec] at hr h2
              rcases res2 with e3 | u
              · exact Except.noConfusion hr
              · obtain ⟨msgs, h3⟩ := (ih (it + 1)
                  { st4 with compactionAttempted := false, truncationAttempted := false }).2 r hr
                refine ⟨msgs, ?_⟩
                rw [h3]
                have h2x : st4.effects = st2.effects := h2
                have h1x : st2.effects = st.effects := h1
                show st4.effects ++ _ = st.effects ++ _
                rw [h2x, h1x]

/-- C2: whenever `runAgent` terminates by propagating an error —
cancellation, terminal overflow, retries exhausted, summariser failure,
or a rethrown provider error (including unknown classifications) — no
transcript append and no metadata-index update has been performed; the
two persistence calls happen exactly once, only on the final-reply and
max-iterations paths; and a run whose cancellation token is pre-aborted
(with at least one permitted iteration, as the config schema requires)
fails with the cancellation reason and leaves the transcript
untouched. -/
theorem c2_run_errors_persist_nothing (env : RunEnv) :
    (∀ e, (runAgent env).1 = .error e → (runAgent env).2 = [])
  ∧ (env.aborted = true → 1 ≤ env.maxIterations →
      (runAgent env).1 = .error (.cancelled env.abortReason) ∧ (runAgent env).2 = [])
  ∧ (∀ r, (runAgent env).1 = .ok r → ∃ msgs,
      (runAgent env).2 = [Effect.appendTranscript msgs,
        Effect.updateMeta env.modelId r.usage.totalTokens]) := by
  have hrn : runAgent env
      = ((iterLoop env
            (repairOrphanedToolCalls (transcriptToMessages env.transcript)
              ++ [Message.user (.str env.userMessage) env.now]).length
            env.maxIterations 0
            { messages := repairOrphanedToolCalls (transcriptToMessages env.transcript)
                ++ [Message.user (.str env.userMessage) env.now]
              states := createProfileStates env.numProfiles
              profileIndex := 0
              totalUsage := emptyUsage
              lastCallUsage := emptyUsage
              llmCalls := 0
              toolCalls := 0
              effects := []
              compactionAttempted := false
              truncationAttempted := false }).1,
         (iterLoop env
            (repairOrphanedToolCalls (transcriptToMessages env.transcript)
              ++ [Message.user (.str env.userMessage) env.now]).length
            env.maxIterations 0
            { messages := repairOrphanedToolCalls (transcriptToMessages env.transcript)
                ++ [Message.user (.str env.userMessage) env.now]
              states := createProfileStates env.numProfiles
              profileIndex := 0
              totalUsage := emptyUsage
              lastCallUsage := emptyUsage
              llmCalls := 0
              toolCalls := 0
              effects := []
              compactionAttempted := false
              truncationAttempted := false }).2.effects) := rfl
  have hiter := iter_effects env
    (repairOrphanedToolCalls (transcriptToMessages env.transcript)
      ++ [Message.user (.str env.userMessage) env.now]).length
    env.maxIterations 0
    { messages := repairOrphanedToolCalls (transcriptToMessages env.transcript)
        ++ [Message.user (.str env.userMessage) env.now]
      states := createProfileStates env.numProfiles
      profileIndex := 0
      totalUsage := emptyUsage
      lastCallUsage := emptyUsage
      llmCalls := 0
      toolCalls := 0
      effects := []
      compactionAttempted := false
      truncationAttempted := false }
  refine ⟨?_, ?_, ?_⟩
  · intro e he
    rw [hrn] at he ⊢
    exact hiter.1 e he
  · intro hab hmax
    obtain ⟨rem, hrem⟩ : ∃ rem, env.maxIterations = rem + 1 :=
      ⟨env.maxIterations - 1, by omega⟩
    have herr : (runAgent env).1 = .error (.cancelled env.abortReason) := by
      rw [hrn]
      show (iterLoop env _ env.maxIterations 0 _).1 = _
      rw [hrem, iterLoop, if_pos hab]
    refine ⟨herr, ?_⟩
    rw [hrn] at herr ⊢
    exact hiter.1 _ herr
  · intro r hr
    rw [hrn] at hr ⊢
    obtain ⟨msgs, hmsgs⟩ := hiter.2 r hr
    exact ⟨msgs, by rw [hmsgs]; rfl⟩

/-- C2, witnessed with a pre-aborted token: the run fails with the abort
reason and performs no persistence effects. -/
theorem c2_run_errors_persist_nothing_witness :
    (runAgent
      { llm := fun _ => .failure .unknown "boom", tool := fun _ => .missing,
        now := 0, aborted := true, abortReason := "Aborted", transcript := [],
        userMessage := "Hi", numProfiles := 1, maxIterations := 25,
        maxRetries := 3, maxToolResultChars := 50000, modelId := "m" }).1
      = .error (.cancelled "Aborted")
  ∧ (runAgent
      { llm := fun _ => .failure .unknown "boom", tool := fun _ => .missing,
        now := 0, aborted := true, abortReason := "Aborted", transcript := [],
        userMessage := "Hi", numProfiles := 1, maxIterations := 25,
        maxRetries := 3, maxToolResultChars := 50000, modelId := "m" }).2 = [] :=
  (c2_run_errors_persist_nothing
    { llm := fun _ => .failure .unknown "boom", tool := fun _ => .missing,
      now := 0, aborted := true, abortReason := "Aborted", transcript := [],
      userMessage := "Hi", numProfiles := 1, maxIterations := 25,
      maxRetries := 3, maxToolResultChars := 50000, modelId := "m" }).2.1
    rfl (by norm_num)

end MyClaw
